import Mathlib

/-!
Verification of the Asuna Discord bot's tool-mediated dialogue orchestrator,
entity resolution and provisioning monitor, as a shallow embedding of the
TypeScript sources (`pterodactyl.ts`, `llm_service.ts`, the command handlers
and the legacy `src/llm_service.ts`) in Lean 4.

External collaborators (the Pterodactyl REST backend, the OpenAI reasoning
engine, the Discord channel and the system clock) are modelled as oracles:
pure functions handed to the embedded control flow.  Every network call the
code performs is recorded in an explicit event trace so that claims about
which calls happen, and in which order, can be stated and proved.
-/

namespace Asuna

/-! ## Character-level helpers

`String.prototype.includes` of JavaScript, spelled out on character lists.
`headMatches needle hay` is true when `needle` occurs at the front of `hay`;
`charsContain needle hay` is true when `needle` occurs anywhere in `hay`.
-/

def headMatches : List Char → List Char → Bool
  | [], _ => true
  | _ :: _, [] => false
  | a :: as, b :: bs => a == b && headMatches as bs

def charsContain (needle : List Char) : List Char → Bool
  | [] => needle.isEmpty
  | b :: bs => headMatches needle (b :: bs) || charsContain needle bs

/-- JavaScript `s.includes(search)`. -/
def jsIncludes (s search : String) : Bool :=
  charsContain search.toList s.toList

/-- JavaScript `s.toLowerCase()`, character by character. -/
def jsToLower (s : String) : String :=
  String.mk (s.toList.map Char.toLower)

/-! ## Data model (from `pterodactyl.ts`) -/

/-- One entry of `server.attributes.relationships.allocations.data`. -/
structure AllocationInfo where
  id : Nat
  port : Nat
  is_default : Bool
  deriving DecidableEq

/-- `server.attributes.limits`. -/
structure ServerLimits where
  memory : Int
  swap : Int
  disk : Int
  io : Int
  cpu : Int
  deriving DecidableEq

/-- The fields of `PterodactylServer.attributes` the control flow reads.
`allocations` stands for `relationships?.allocations?.data` (empty when the
relationship is absent). -/
structure ServerAttributes where
  identifier : String
  uuid : String
  name : String
  description : String
  limits : ServerLimits
  is_installing : Bool
  allocations : List AllocationInfo
  deriving DecidableEq

/-- A server summary as returned by the client API listing. -/
structure PterodactylServer where
  attributes : ServerAttributes
  deriving DecidableEq

/-- `current_state` of a server's live resource state. -/
inductive CurrentState
  | running
  | offline
  | starting
  | stopping
  deriving DecidableEq

/-- `PterodactylServerResourceState` (only the field the control flow reads). -/
structure PterodactylServerResourceState where
  current_state : CurrentState
  deriving DecidableEq

/-! ## Nests, eggs, allocations and creation options (from `pterodactyl.ts`) -/

/-- `PterodactylEggVariable.attributes`. -/
structure EggVariableAttributes where
  name : String
  description : String
  env_variable : String
  default_value : String
  user_viewable : Bool
  user_editable : Bool
  deriving DecidableEq

structure PterodactylEggVariable where
  attributes : EggVariableAttributes
  deriving DecidableEq

/-- `PterodactylEgg.attributes`; `variables` stands for
`relationships?.variables?.data` (empty when absent). -/
structure EggAttributes where
  id : Nat
  name : String
  description : Option String
  docker_image : String
  startup : String
  variablesData : List PterodactylEggVariable
  deriving DecidableEq

structure PterodactylEgg where
  attributes : EggAttributes
  deriving DecidableEq

/-- `PterodactylNest.attributes`; `eggs` stands for
`relationships?.eggs?.data` (empty when absent). -/
structure NestAttributes where
  id : Nat
  name : String
  description : Option String
  eggs : List PterodactylEgg
  deriving DecidableEq

structure PterodactylNest where
  attributes : NestAttributes
  deriving DecidableEq

/-- `PterodactylAllocation.attributes`. -/
structure PterodactylAllocationAttributes where
  id : Nat
  ip : String
  port : Nat
  assigned : Bool
  deriving DecidableEq

structure PterodactylAllocation where
  attributes : PterodactylAllocationAttributes
  deriving DecidableEq

structure FeatureLimits where
  databases : Nat
  allocations : Nat
  backups : Nat
  deriving DecidableEq

/-- `ServerCreationOptions`; `allocation_default` is `allocation.default` and
the environment record is an association list built by JS property
assignment. -/
structure ServerCreationOptions where
  name : String
  user : Nat
  egg : Nat
  docker_image : String
  startup : String
  environment : List (String × String)
  limits : ServerLimits
  feature_limits : FeatureLimits
  allocation_default : Nat
  start_on_completion : Bool
  deriving DecidableEq

/-! ## Backend gateway wrappers (`pterodactyl.ts`)

Each wrapper is a one-to-one HTTP call; the transport is an oracle
(`Except errorMessage payload`): `.error` stands for a thrown axios error,
which the wrapper catches.  `credsConfigured` stands for the presence of the
API URL and key read from the environment at start.  The wrappers are total
functions: no exception escapes them.
-/

/-- `listServers`: missing credentials or a failed request yield `[]`. -/
def listServers (credsConfigured : Bool)
    (httpGet : Except String (List PterodactylServer)) : List PterodactylServer :=
  if !credsConfigured then []
  else
    match httpGet with
    | .ok data => data
    | .error _ => []

/-- `getServerResources`: missing credentials, an empty (falsy) server id or
a failed request yield `null`. -/
def getServerResources (credsConfigured : Bool) (serverId : String)
    (httpGet : Except String PterodactylServerResourceState) :
    Option PterodactylServerResourceState :=
  if !credsConfigured then none
  else if serverId = "" then none
  else
    match httpGet with
    | .ok attrs => some attrs
    | .error _ => none

/-- `sendPowerSignal`: missing credentials, an empty server id, an invalid
signal or a failed request yield `false`; a 204 response yields `true`. -/
def sendPowerSignal (credsConfigured : Bool) (serverId signal : String)
    (httpPost : Except String Unit) : Bool :=
  if !credsConfigured then false
  else if serverId = "" then false
  else if !(["start", "stop", "restart", "kill"].contains signal) then false
  else
    match httpPost with
    | .ok _ => true
    | .error _ => false

/-! ## Entity resolution

Three resolution sites exist in the repository:
* `resolveServerId`, the helper inside `processUserQueryWithLLM` of the
  current `llm_service.ts`;
* the inline resolution of the legacy `src/llm_service.ts`
  (`get_pterodactyl_server_resources` handler), here `resolveTargetServer`;
* the resolution inside `handleServerStatus` of the command handlers.

All three first try an exact identifier match and then filter the listing by
a case-insensitive substring match on the display name, with this filter:
`allServers.filter(s => s.attributes.name.toLowerCase().includes(lowerCaseQuery))`.
-/

def matchingByName (allServers : List PterodactylServer) (query : String) :
    List PterodactylServer :=
  allServers.filter (fun s =>
    jsIncludes (jsToLower s.attributes.name) (jsToLower query))

/-- `resolveServerId` of the current `llm_service.ts`: exact identifier match
first; otherwise a unique case-insensitive name match resolves, while zero or
more than one matches leave the target unset, so `null` is returned for both
the not-found and the ambiguous case. -/
def resolveServerId (allServers : List PterodactylServer) (query : String) :
    Option String :=
  let targetServer : Option PterodactylServer :=
    allServers.find? (fun s => s.attributes.identifier == query)
  let targetServer : Option PterodactylServer :=
    match targetServer with
    | some s => some s
    | none =>
      let m := matchingByName allServers query
      if m.length = 1 then m.head? else none
  targetServer.map (fun s => s.attributes.identifier)

/-- The inline resolution of the legacy `src/llm_service.ts`: after the exact
identifier match and the unique-name match it adds
`if (matchingByName.length > 0 && !targetServer) targetServer = matchingByName[0]`,
silently picking the first match when several servers match the name. -/
def resolveTargetServer (allServers : List PterodactylServer)
    (serverQuery : String) : Option PterodactylServer :=
  let t0 := allServers.find? (fun s => s.attributes.identifier == serverQuery)
  match t0 with
  | some s => some s
  | none =>
    let m := matchingByName allServers serverQuery
    let t1 := if m.length = 1 then m.head? else none
    match t1 with
    | some s => some s
    | none => if 0 < m.length then m.head? else none

/-- Outcome of the resolution step of `handleServerStatus`: the only site that
reports the ambiguous case (with the matching candidates) separately from the
not-found case. -/
inductive StatusResolution
  | resolved (s : PterodactylServer)
  | ambiguous (candidates : List PterodactylServer)
  | notFound
  deriving DecidableEq

/-- The resolution step of `handleServerStatus` in the command handlers:
identifier match, then unique name match; more than one name match replies
with the list of candidates, zero matches reports not-found. -/
def handleServerStatusResolution (allServers : List PterodactylServer)
    (serverQuery : String) : StatusResolution :=
  match allServers.find? (fun s => s.attributes.identifier == serverQuery) with
  | some s => .resolved s
  | none =>
    let m := matchingByName allServers serverQuery
    if m.length = 1 then
      match m.head? with
      | some s => .resolved s
      | none => .notFound
    else if 1 < m.length then .ambiguous m
    else .notFound

/-! Concrete servers for the counterexamples and witnesses. -/

def demoLimits : ServerLimits := ⟨1024, 0, 10240, 500, 100⟩

def demoServerA : PterodactylServer :=
  { attributes :=
    { identifier := "aaa11111", uuid := "uuid-a", name := "Craft One",
      description := "", limits := demoLimits, is_installing := false,
      allocations := [] } }

def demoServerB : PterodactylServer :=
  { attributes :=
    { identifier := "bbb22222", uuid := "uuid-b", name := "Craft Two",
      description := "", limits := demoLimits, is_installing := false,
      allocations := [] } }

end Asuna

namespace Asuna

/-! ## Resolution lemmas -/

theorem find?_id_eq_none {servers : List PterodactylServer} {q : String}
    (h : ∀ s ∈ servers, s.attributes.identifier ≠ q) :
    servers.find? (fun s => s.attributes.identifier == q) = none := by
  rw [List.find?_eq_none]
  intro s hs
  simpa using h s hs

theorem length_one_head? {l : List PterodactylServer} {s : PterodactylServer}
    (h : l = [s]) : l.head? = some s := by
  subst h; rfl

theorem identifier_match_find {servers : List PterodactylServer} {q : String}
    {s : PterodactylServer} (hs : s ∈ servers) (hid : s.attributes.identifier = q)
    (hnodup : (servers.map (fun t => t.attributes.identifier)).Nodup) :
    servers.find? (fun t => t.attributes.identifier == q) = some s := by
  have hsome : (servers.find? (fun t => t.attributes.identifier == q)).isSome := by
    rw [List.find?_isSome]
    exact ⟨s, hs, by simp [hid]⟩
  obtain ⟨t, ht⟩ := Option.isSome_iff_exists.mp hsome
  have htmem : t ∈ servers := List.mem_of_find?_eq_some ht
  have htp : t.attributes.identifier = q := by
    have := List.find?_some ht
    simpa using this
  have hts : t = s :=
    List.inj_on_of_nodup_map hnodup htmem hs (by rw [htp, hid])
  rw [ht, hts]

/-- C2: where an exact identifier match is ruled out, all three resolution
sites return the unique case-insensitive name match; on zero matches they
report not-found; on more than one match `resolveServerId` returns `null`
(reported to the engine as "not found or is ambiguous"),
`handleServerStatus` reports the ambiguous candidates — but the legacy
resolution of `src/llm_service.ts` silently picks the first match. -/
theorem C2_resolution_outcomes (servers : List PterodactylServer) (q : String)
    (hnoid : ∀ s ∈ servers, s.attributes.identifier ≠ q) :
    (∀ s, matchingByName servers q = [s] →
        resolveServerId servers q = some s.attributes.identifier ∧
        handleServerStatusResolution servers q = .resolved s ∧
        resolveTargetServer servers q = some s) ∧
    (matchingByName servers q = [] →
        resolveServerId servers q = none ∧
        handleServerStatusResolution servers q = .notFound ∧
        resolveTargetServer servers q = none) ∧
    (1 < (matchingByName servers q).length →
        resolveServerId servers q = none ∧
        handleServerStatusResolution servers q = .ambiguous (matchingByName servers q) ∧
        resolveTargetServer servers q = (matchingByName servers q).head?) := by
  have hfind := find?_id_eq_none hnoid
  refine ⟨?_, ?_, ?_⟩
  · intro s hm
    refine ⟨?_, ?_, ?_⟩
    · simp [resolveServerId, hfind, hm]
    · simp [handleServerStatusResolution, hfind, hm]
    · simp [resolveTargetServer, hfind, hm]
  · intro hm
    refine ⟨?_, ?_, ?_⟩
    · simp [resolveServerId, hfind, hm]
    · simp [handleServerStatusResolution, hfind, hm]
    · simp [resolveTargetServer, hfind, hm]
  · intro hgt
    have hne : (matchingByName servers q).length ≠ 1 := by omega
    have hpos : 0 < (matchingByName servers q).length := by omega
    refine ⟨?_, ?_, ?_⟩
    · simp [resolveServerId, hfind, hne]
    · simp [handleServerStatusResolution, hfind, hne, hgt]
    · simp [resolveTargetServer, hfind, hne, hpos]

/-- C2 witness: the unique-match branch on a concrete listing. -/
theorem C2_resolution_outcomes_witness :
    resolveServerId [demoServerA, demoServerB] "One" = some "aaa11111" ∧
    handleServerStatusResolution [demoServerA, demoServerB] "One" =
      .resolved demoServerA ∧
    resolveTargetServer [demoServerA, demoServerB] "One" = some demoServerA := by
  have h := (C2_resolution_outcomes [demoServerA, demoServerB] "One"
    (by decide)).1 demoServerA (by decide)
  exact h

/-- C2 counterexample: "craft" matches the names of both servers and matches
no identifier, yet the legacy resolution of `src/llm_service.ts` returns the
first candidate instead of an ambiguous outcome. -/
theorem C2_counterexample :
    (matchingByName [demoServerA, demoServerB] "craft").length = 2 ∧
    demoServerA.attributes.identifier ≠ "craft" ∧
    demoServerB.attributes.identifier ≠ "craft" ∧
    resolveTargetServer [demoServerA, demoServerB] "craft" = some demoServerA := by
  refine ⟨by decide, by decide, by decide, by decide⟩

/-- C8: a query equal to a listed server's stable identifier always resolves
to that server, at every resolution site, regardless of which display names
the query would also match. -/
theorem C8_identifier_precedence (servers : List PterodactylServer) (q : String)
    (s : PterodactylServer) (hs : s ∈ servers) (hid : s.attributes.identifier = q)
    (hnodup : (servers.map (fun t => t.attributes.identifier)).Nodup) :
    resolveServerId servers q = some q ∧
    resolveTargetServer servers q = some s ∧
    handleServerStatusResolution servers q = .resolved s := by
  have hfind := identifier_match_find hs hid hnodup
  refine ⟨?_, ?_, ?_⟩
  · simp [resolveServerId, hfind, hid]
  · simp [resolveTargetServer, hfind]
  · simp [handleServerStatusResolution, hfind]

/-- C8 witness: resolving by exact identifier on a concrete listing whose
first server's name would also substring-match other queries. -/
theorem C8_identifier_precedence_witness :
    resolveServerId [demoServerA, demoServerB] "bbb22222" = some "bbb22222" ∧
    resolveTargetServer [demoServerA, demoServerB] "bbb22222" = some demoServerB ∧
    handleServerStatusResolution [demoServerA, demoServerB] "bbb22222" =
      .resolved demoServerB :=
  C8_identifier_precedence [demoServerA, demoServerB] "bbb22222" demoServerB
    (by decide) (by decide) (by decide)

/-! ## The tool-dispatch loop of `processUserQueryWithLLM`

The backend is a bundle of oracles: the values its seven operations return
during one dispatch.  Every operation the dispatch performs is recorded as a
`BackendCall` event, in call order.
-/

structure Backend where
  servers : List PterodactylServer
  resources : String → Option PterodactylServerResourceState
  power : String → String → Bool
  nests : List PterodactylNest
  eggDetails : Nat → Nat → Option PterodactylEgg
  allocation : Nat → Option PterodactylAllocation
  create : ServerCreationOptions → Option PterodactylServer

inductive BackendCall
  | listServersCall
  | getResources (serverId : String)
  | powerSignal (serverId signal : String)
  | listNests
  | eggDetailsCall (nestId eggId : Nat)
  | findAllocation (nodeId : Nat)
  | createServerCall (options : ServerCreationOptions)
  deriving DecidableEq

/-- `SimplifiedPterodactylServerInfo` as assembled for the
`list_pterodactyl_servers_basic_info` tool. -/
structure SimplifiedPterodactylServerInfo where
  name : String
  uuid : String
  identifier : String
  description : String
  limits : ServerLimits
  default_port : Option Nat
  deriving DecidableEq

def simplifyServer (server : PterodactylServer) : SimplifiedPterodactylServerInfo :=
  let defaultAllocation := server.attributes.allocations.find? (fun a => a.is_default)
  { name := server.attributes.name,
    uuid := server.attributes.uuid,
    identifier := server.attributes.identifier,
    description := server.attributes.description,
    limits := server.attributes.limits,
    default_port := defaultAllocation.map (fun a => a.port) }

def currentStateString : CurrentState → String
  | .running => "running"
  | .offline => "offline"
  | .starting => "starting"
  | .stopping => "stopping"

/-- `ServerOnlineStatusInfo` of `pterodactyl.ts`. -/
structure ServerOnlineStatusInfo where
  name : String
  identifier : String
  current_state : String
  default_port : Option Nat
  deriving DecidableEq

/-- `getServersWithOnlineStatus`: one listing call, then one resource call
per listed server, in listing order; a failed resource fetch shows as
"unknown". -/
def getServersWithOnlineStatus (b : Backend) :
    List ServerOnlineStatusInfo × List BackendCall :=
  let infos := b.servers.map (fun server =>
    let resources := b.resources server.attributes.identifier
    let defaultAllocation := server.attributes.allocations.find? (fun a => a.is_default)
    { name := server.attributes.name,
      identifier := server.attributes.identifier,
      current_state :=
        match resources with
        | some r => currentStateString r.current_state
        | none => "unknown",
      default_port := defaultAllocation.map (fun a => a.port) :
        ServerOnlineStatusInfo })
  (infos,
    BackendCall.listServersCall ::
      b.servers.map (fun s => BackendCall.getResources s.attributes.identifier))

/-- `SimplifiedNestInfo` for the `list_available_games_and_types` tool; each
available egg is a (name, description) pair. -/
structure SimplifiedNestInfo where
  nest_name : String
  nest_description : Option String
  available_eggs : List (String × Option String)
  deriving DecidableEq

structure SimplifiedEggVariable where
  name : String
  description : String
  env_variable : String
  default_value : String
  is_editable : Bool
  deriving DecidableEq

structure SimplifiedEggDetails where
  egg_name : String
  egg_description : Option String
  nest_name : String
  variablesData : List SimplifiedEggVariable
  deriving DecidableEq

/-- The egg search loop shared by `get_specific_egg_installation_details` and
`create_pterodactyl_server`: walk the nests, skip a nest whose lowercased
name differs from the requested one (when a nest name was given), and inside
a nest look for an egg whose lowercased name equals the requested egg name;
on a hit, fetch the egg details (which may still come back `null`) and stop.
Returns (egg details, nest, backend calls made). -/
def findEggLoop (getEgg : Nat → Nat → Option PterodactylEgg)
    (eggNameToFind : String) (nestNameToFind : Option String) :
    List PterodactylNest →
      Option PterodactylEgg × Option PterodactylNest × List BackendCall
  | [] => (none, none, [])
  | nest :: rest =>
    if (match nestNameToFind with
        | some nn => jsToLower nest.attributes.name != nn
        | none => false) then
      findEggLoop getEgg eggNameToFind nestNameToFind rest
    else
      match nest.attributes.eggs.find?
          (fun e => jsToLower e.attributes.name == eggNameToFind) with
      | some egg =>
        (getEgg nest.attributes.id egg.attributes.id, some nest,
          [BackendCall.eggDetailsCall nest.attributes.id egg.attributes.id])
      | none => findEggLoop getEgg eggNameToFind nestNameToFind rest

/-! ### The environment record

`finalEnvironment` is a JavaScript object filled by property assignment:
first every egg variable's default, then every user-supplied override.
Assignment to a present key replaces its value in place; a fresh key is
appended. -/

def recordSet : List (String × String) → String → String → List (String × String)
  | [], k, v => [(k, v)]
  | p :: ps, k, v => if p.1 = k then (k, v) :: ps else p :: recordSet ps k v

/-- Reading a property of the record (the first binding of the key). -/
def recordLookup : List (String × String) → String → Option String
  | [], _ => none
  | p :: ps, k => if p.1 = k then some p.2 else recordLookup ps k

/-- Lines 416-425 of `llm_service.ts`: egg-variable defaults first, then the
user-provided overrides on top. -/
def buildFinalEnvironment (vars : List PterodactylEggVariable)
    (userProvidedEnv : Option (List (String × String))) : List (String × String) :=
  let finalEnvironment : List (String × String) :=
    vars.foldl
      (fun m v => recordSet m v.attributes.env_variable v.attributes.default_value) []
  match userProvidedEnv with
  | some user => user.foldl (fun m kv => recordSet m kv.1 kv.2) finalEnvironment
  | none => finalEnvironment

/-! ### Tool invocations and their dispatch -/

/-- A `ToolInvocation` produced by the reasoning engine: the call id, the
function name and the parsed arguments (each tool reads only its own). -/
structure ToolInvocation where
  id : String
  name : String
  argServerId : String := ""
  argSignal : String := ""
  argServerName : String := ""
  argEggName : String := ""
  argNestName : Option String := none
  argEnv : Option (List (String × String)) := none
  deriving DecidableEq

/-- `functionResponseContent`, structured: each constructor is one of the
JSON payload shapes the dispatch serializes; `errorPayload m` is
`JSON.stringify({error: m})`. -/
inductive ToolContent
  | listBasic (servers : List SimplifiedPterodactylServerInfo)
  | resourcesContent (r : Option PterodactylServerResourceState)
  | statuses (l : List ServerOnlineStatusInfo)
  | powerResult (success : Bool) (serverId signal : String)
  | nestsList (l : List SimplifiedNestInfo)
  | eggInfo (d : SimplifiedEggDetails)
  | createInitiated (serverName : String)
  | errorPayload (msg : String)
  deriving DecidableEq

/-- JS truthiness of the parsed owner/node configuration ids: `undefined`
(absent or non-numeric in the environment) and `0` are falsy. -/
def truthyNat : Option Nat → Bool
  | none => false
  | some n => n != 0

def configErrorMessage : String :=
  "Bot is not properly configured for server creation (missing default owner or node ID). Please contact the administrator."

def eggDetailsNotFoundMessage (eggName : String) (nestName : Option String) : String :=
  let base := "Could not find an Egg named \"" ++ eggName ++ "\""
  let base :=
    match nestName with
    | some nn => base ++ " in Nest \"" ++ nn ++ "\""
    | none => base
  base ++ ". Please ensure the names are correct, or list available games to see valid options."

def createEggNotFoundMessage (eggName : String) (nestName : Option String) : String :=
  let base := "Could not find Egg \"" ++ eggName ++ "\""
  let base :=
    match nestName with
    | some nn => base ++ " in Nest \"" ++ nn ++ "\""
    | none => base
  base ++ ". Cannot create server."

def noAllocationMessage (nodeId : Nat) : String :=
  "No available IP allocations found on the default node (ID: " ++ toString nodeId ++
    "). Server creation failed."

def apiCreateFailedMessage : String :=
  "Server creation process failed at the API level. Check bot logs for details."

/-- The `create_pterodactyl_server` branch (lines 383-461 of
`llm_service.ts`): refuse locally when the configured owner or node id is
falsy; otherwise list the nests, search for the egg, find a free allocation
on the default node, merge the environment and issue the create call.  On a
successful creation the code also spawns the provisioning monitor
(fire-and-forget), modelled separately below. -/
def createPterodactylServerHandler (ownerId nodeId : Option Nat) (b : Backend)
    (tc : ToolInvocation) : ToolContent × List BackendCall :=
  if !truthyNat ownerId || !truthyNat nodeId then
    (.errorPayload configErrorMessage, [])
  else
    let eggNameToFind := jsToLower tc.argEggName
    let nestNameToFind := tc.argNestName.map jsToLower
    let r := findEggLoop b.eggDetails eggNameToFind nestNameToFind b.nests
    let calls := BackendCall.listNests :: r.2.2
    match r.1, r.2.1 with
    | some targetEgg, some _ =>
      match b.allocation (nodeId.getD 0) with
      | none =>
        (.errorPayload (noAllocationMessage (nodeId.getD 0)),
          calls ++ [BackendCall.findAllocation (nodeId.getD 0)])
      | some availableAllocation =>
        let finalEnvironment := buildFinalEnvironment targetEgg.attributes.variablesData tc.argEnv
        let creationOptions : ServerCreationOptions :=
          { name := tc.argServerName,
            user := ownerId.getD 0,
            egg := targetEgg.attributes.id,
            docker_image := targetEgg.attributes.docker_image,
            startup := targetEgg.attributes.startup,
            environment := finalEnvironment,
            limits := { memory := 2048, swap := 0, disk := 10240, io := 500, cpu := 100 },
            feature_limits := { databases := 0, allocations := 1, backups := 1 },
            allocation_default := availableAllocation.attributes.id,
            start_on_completion := true }
        match b.create creationOptions with
        | some createdServer =>
          (.createInitiated createdServer.attributes.name,
            calls ++ [BackendCall.findAllocation (nodeId.getD 0),
              BackendCall.createServerCall creationOptions])
        | none =>
          (.errorPayload apiCreateFailedMessage,
            calls ++ [BackendCall.findAllocation (nodeId.getD 0),
              BackendCall.createServerCall creationOptions])
    | _, _ => (.errorPayload (createEggNotFoundMessage tc.argEggName tc.argNestName), calls)

/-- The body of the per-invocation try block: the `if/else` chain on the
function name (lines 294-465 of `llm_service.ts`).  Returns the response
content and the backend calls made. -/
def dispatchToolCall (ownerId nodeId : Option Nat) (b : Backend)
    (tc : ToolInvocation) : ToolContent × List BackendCall :=
  if tc.name = "list_pterodactyl_servers_basic_info" then
    (.listBasic (b.servers.map simplifyServer), [BackendCall.listServersCall])
  else if tc.name = "get_specific_server_details_and_status" then
    let actualServerId := (resolveServerId b.servers tc.argServerId).getD ""
    if actualServerId ≠ "" then
      (.resourcesContent (b.resources actualServerId),
        [BackendCall.listServersCall, BackendCall.getResources actualServerId])
    else
      (.errorPayload ("Server with name or ID '" ++ tc.argServerId ++
          "' not found or is ambiguous."),
        [BackendCall.listServersCall])
  else if tc.name = "get_online_status_for_all_servers" then
    let r := getServersWithOnlineStatus b
    (.statuses r.1, r.2)
  else if tc.name = "send_pterodactyl_power_signal" then
    let actualServerId := (resolveServerId b.servers tc.argServerId).getD ""
    if actualServerId ≠ "" then
      (.powerResult (b.power actualServerId tc.argSignal) actualServerId tc.argSignal,
        [BackendCall.listServersCall,
          BackendCall.powerSignal actualServerId tc.argSignal])
    else
      (.errorPayload ("Server with name or ID '" ++ tc.argServerId ++
          "' not found or is ambiguous for power signal."),
        [BackendCall.listServersCall])
  else if tc.name = "list_available_games_and_types" then
    (.nestsList (b.nests.map (fun nest =>
      { nest_name := nest.attributes.name,
        nest_description := nest.attributes.description,
        available_eggs := nest.attributes.eggs.map (fun egg =>
          (egg.attributes.name, egg.attributes.description)) })),
      [BackendCall.listNests])
  else if tc.name = "get_specific_egg_installation_details" then
    let eggNameToFind := jsToLower tc.argEggName
    let nestNameToFind := tc.argNestName.map jsToLower
    let r := findEggLoop b.eggDetails eggNameToFind nestNameToFind b.nests
    match r.1, r.2.1 with
    | some foundEgg, some foundNest =>
      (.eggInfo
        { egg_name := foundEgg.attributes.name,
          egg_description := foundEgg.attributes.description,
          nest_name := foundNest.attributes.name,
          variablesData := foundEgg.attributes.variablesData.map (fun v =>
            { name := v.attributes.name,
              description := v.attributes.description,
              env_variable := v.attributes.env_variable,
              default_value := v.attributes.default_value,
              is_editable := v.attributes.user_viewable && v.attributes.user_editable }) },
        BackendCall.listNests :: r.2.2)
    | _, _ =>
      (.errorPayload (eggDetailsNotFoundMessage tc.argEggName tc.argNestName),
        BackendCall.listNests :: r.2.2)
  else if tc.name = "create_pterodactyl_server" then
    createPterodactylServerHandler ownerId nodeId b tc
  else
    (.errorPayload ("Unknown function: " ++ tc.name), [])

/-- A tool-result message pushed back into the conversation. -/
structure ToolResultMsg where
  tool_call_id : String
  content : ToolContent
  deriving DecidableEq

/-- The per-batch loop (lines 269-478): each invocation runs inside
try/catch; `execOne` is the try block (returning content, or throwing with a
message), a throw becomes the structured payload
`{error: "Error executing tool <name>: <message>"}`, and the loop continues
with the remaining invocations of the batch. -/
def execBatch (execOne : ToolInvocation → Except String ToolContent) :
    List ToolInvocation → List ToolResultMsg
  | [] => []
  | toolCall :: rest =>
    let functionResponseContent :=
      match execOne toolCall with
      | .ok content => content
      | .error m =>
        ToolContent.errorPayload ("Error executing tool " ++ toolCall.name ++ ": " ++ m)
    { tool_call_id := toolCall.id, content := functionResponseContent } ::
      execBatch execOne rest

/-! ## Gateway failure behaviour (C9) -/

/-- C9: a failed HTTP call never escapes a gateway wrapper: `listServers`
returns the empty list, `getServerResources` returns `null` and
`sendPowerSignal` returns `false`, whatever the configuration, arguments and
error are.  The wrappers are total Lean functions, so no exception reaches
the orchestrator loop. -/
theorem C9_gateway_failures_benign (credsConfigured : Bool)
    (serverId signal e1 e2 e3 : String) :
    listServers credsConfigured (.error e1) = [] ∧
    getServerResources credsConfigured serverId (.error e2) = none ∧
    sendPowerSignal credsConfigured serverId signal (.error e3) = false := by
  refine ⟨?_, ?_, ?_⟩
  · cases credsConfigured <;> simp [listServers]
  · cases credsConfigured <;> by_cases h : serverId = "" <;>
      simp [getServerResources, h]
  · cases credsConfigured <;> by_cases h : serverId = "" <;>
      by_cases h2 : (["start", "stop", "restart", "kill"].contains signal) <;>
      simp [sendPowerSignal, h, h2]

/-! ## Batch continuation (C5) -/

theorem execBatch_length (execOne : ToolInvocation → Except String ToolContent) :
    ∀ batch : List ToolInvocation, (execBatch execOne batch).length = batch.length := by
  intro batch
  induction batch with
  | nil => rfl
  | cons tc rest ih => simp [execBatch, ih]

/-- C5: when one invocation of a batch throws, its slot in the results gets
the structured error payload and every invocation after it is still
executed; the results stay in one-to-one positional correspondence with the
batch. -/
theorem C5_batch_continues (execOne : ToolInvocation → Except String ToolContent)
    (pre post : List ToolInvocation) (tc : ToolInvocation) (msg : String)
    (hfail : execOne tc = .error msg) :
    execBatch execOne (pre ++ tc :: post) =
      execBatch execOne pre ++
        ({ tool_call_id := tc.id,
           content := .errorPayload ("Error executing tool " ++ tc.name ++ ": " ++ msg) } ::
          execBatch execOne post) ∧
    (execBatch execOne (pre ++ tc :: post)).length = pre.length + 1 + post.length := by
  constructor
  · induction pre with
    | nil => simp [execBatch, hfail]
    | cons p ps ih => simp [execBatch, ih]
  · rw [execBatch_length]
    simp
    omega

def demoInvocationList : ToolInvocation :=
  { id := "call-1", name := "list_pterodactyl_servers_basic_info" }

def demoInvocationBoom : ToolInvocation :=
  { id := "call-2", name := "get_specific_server_details_and_status",
    argServerId := "craft" }

def demoInvocationStatus : ToolInvocation :=
  { id := "call-3", name := "get_online_status_for_all_servers" }

def demoExecOne : ToolInvocation → Except String ToolContent := fun tc =>
  if tc.id = "call-2" then .error "boom" else .ok (.listBasic [])

/-- C5 witness: a concrete three-invocation batch whose middle invocation
throws. -/
theorem C5_batch_continues_witness :
    execBatch demoExecOne [demoInvocationList, demoInvocationBoom, demoInvocationStatus] =
      execBatch demoExecOne [demoInvocationList] ++
        ({ tool_call_id := demoInvocationBoom.id,
           content := .errorPayload ("Error executing tool " ++ demoInvocationBoom.name ++
             ": " ++ "boom") } ::
          execBatch demoExecOne [demoInvocationStatus]) ∧
    (execBatch demoExecOne [demoInvocationList, demoInvocationBoom, demoInvocationStatus]).length =
      [demoInvocationList].length + 1 + [demoInvocationStatus].length :=
  C5_batch_continues demoExecOne [demoInvocationList] [demoInvocationStatus]
    demoInvocationBoom "boom" rfl

/-! ## The environment merge (C6) -/

theorem recordLookup_recordSet_self (m : List (String × String)) (k v : String) :
    recordLookup (recordSet m k v) k = some v := by
  induction m with
  | nil => simp [recordSet, recordLookup]
  | cons p ps ih =>
    by_cases h : p.1 = k
    · simp [recordSet, recordLookup, h]
    · simp [recordSet, recordLookup, h, ih]

theorem recordLookup_recordSet_other (m : List (String × String)) (k v k2 : String)
    (hne : k2 ≠ k) : recordLookup (recordSet m k v) k2 = recordLookup m k2 := by
  induction m with
  | nil =>
    simp only [recordSet, recordLookup]
    rw [if_neg (Ne.symm hne)]
  | cons p ps ih =>
    by_cases h : p.1 = k
    · simp only [recordSet]
      rw [if_pos h]
      simp only [recordLookup]
      rw [if_neg (Ne.symm hne), if_neg (fun hc => hne (h.symm.trans hc).symm)]
    · simp only [recordSet]
      rw [if_neg h]
      simp only [recordLookup]
      by_cases h2 : p.1 = k2
      · rw [if_pos h2, if_pos h2]
      · rw [if_neg h2, if_neg h2]
        exact ih

theorem recordLookup_append (l1 l2 : List (String × String)) (k : String) :
    recordLookup (l1 ++ l2) k = (recordLookup l1 k).or (recordLookup l2 k) := by
  induction l1 with
  | nil => simp [recordLookup]
  | cons p ps ih =>
    by_cases h : p.1 = k
    · simp [recordLookup, h]
    · simp [recordLookup, h, ih]

theorem recordLookup_foldl (ps : List (String × String))
    (m : List (String × String)) (k : String) :
    recordLookup (ps.foldl (fun acc p => recordSet acc p.1 p.2) m) k =
      (recordLookup ps.reverse k).or (recordLookup m k) := by
  induction ps generalizing m with
  | nil => simp [recordLookup]
  | cons p rest ih =>
    simp only [List.foldl_cons, List.reverse_cons]
    rw [ih, recordLookup_append, Option.or_assoc]
    congr 1
    by_cases hpk : p.1 = k
    · subst hpk
      simp [recordLookup, recordLookup_recordSet_self]
    · simp [recordLookup, hpk, recordLookup_recordSet_other m p.1 p.2 k (Ne.symm hpk)]

theorem nodupReverse {α : Type} {l : List α} (h : l.Nodup) : l.reverse.Nodup :=
  List.nodup_reverse.mpr h

theorem recordLookup_of_nodup {l : List (String × String)} {kv : String × String}
    (hnodup : (l.map Prod.fst).Nodup) (hmem : kv ∈ l) :
    recordLookup l kv.1 = some kv.2 := by
  induction l with
  | nil => cases hmem
  | cons p ps ih =>
    simp only [List.map_cons, List.nodup_cons] at hnodup
    rcases List.mem_cons.mp hmem with h | h
    · subst h
      simp [recordLookup]
    · have hne : ¬(p.1 = kv.1) := by
        intro he
        exact hnodup.1 (he ▸ List.mem_map_of_mem Prod.fst h)
      simp only [recordLookup]
      rw [if_neg hne]
      exact ih hnodup.2 h

theorem recordLookup_of_not_mem {l : List (String × String)} {k : String}
    (h : k ∉ l.map Prod.fst) : recordLookup l k = none := by
  induction l with
  | nil => rfl
  | cons p ps ih =>
    simp only [List.map_cons, List.mem_cons] at h
    push_neg at h
    simp only [recordLookup]
    rw [if_neg (Ne.symm h.1)]
    exact ih h.2

/-- C6: in the merged creation environment, every user-supplied key carries
the user's value, every egg-variable key absent from the overrides carries
that variable's default, and no egg-variable key is missing. -/
theorem C6_environment_merge (vars : List PterodactylEggVariable)
    (user : List (String × String))
    (hvars : (vars.map (fun v => v.attributes.env_variable)).Nodup)
    (huser : (user.map Prod.fst).Nodup) :
    (∀ kv ∈ user,
        recordLookup (buildFinalEnvironment vars (some user)) kv.1 = some kv.2) ∧
    (∀ v ∈ vars, v.attributes.env_variable ∉ user.map Prod.fst →
        recordLookup (buildFinalEnvironment vars (some user))
          v.attributes.env_variable = some v.attributes.default_value) ∧
    (∀ v ∈ vars,
        (recordLookup (buildFinalEnvironment vars (some user))
          v.attributes.env_variable).isSome) := by
  have hbuild :
      buildFinalEnvironment vars (some user) =
        user.foldl (fun acc p => recordSet acc p.1 p.2)
          (vars.foldl
            (fun m v => recordSet m v.attributes.env_variable v.attributes.default_value)
            []) := rfl
  have huserPart : ∀ kv ∈ user,
      recordLookup (buildFinalEnvironment vars (some user)) kv.1 = some kv.2 := by
    intro kv hkv
    rw [hbuild, recordLookup_foldl]
    have hrev : recordLookup user.reverse kv.1 = some kv.2 :=
      recordLookup_of_nodup (by rw [List.map_reverse]; exact nodupReverse huser)
        (List.mem_reverse.mpr hkv)
    rw [hrev]
    rfl
  have hdefaultPart : ∀ v ∈ vars, v.attributes.env_variable ∉ user.map Prod.fst →
      recordLookup (buildFinalEnvironment vars (some user))
        v.attributes.env_variable = some v.attributes.default_value := by
    intro v hv hnotin
    rw [hbuild, recordLookup_foldl]
    have hrev : recordLookup user.reverse v.attributes.env_variable = none := by
      apply recordLookup_of_not_mem
      rw [List.map_reverse]
      intro hc
      exact hnotin (List.mem_reverse.mp hc)
    rw [hrev]
    have hfm :
        vars.foldl
            (fun m v => recordSet m v.attributes.env_variable v.attributes.default_value)
            [] =
          (vars.map (fun v => (v.attributes.env_variable, v.attributes.default_value))).foldl
            (fun acc p => recordSet acc p.1 p.2) [] := by
      rw [List.foldl_map]
    rw [Option.none_or, hfm, recordLookup_foldl]
    have hmem2 :
        ((v.attributes.env_variable, v.attributes.default_value) : String × String) ∈
          (vars.map (fun v => (v.attributes.env_variable, v.attributes.default_value))).reverse :=
      List.mem_reverse.mpr (List.mem_map_of_mem _ hv)
    have hnodup2 :
        (((vars.map (fun v => (v.attributes.env_variable, v.attributes.default_value))).reverse).map
          Prod.fst).Nodup := by
      rw [List.map_reverse]
      apply nodupReverse
      rw [List.map_map]
      simpa [Function.comp] using hvars
    have hrev2 :
        recordLookup
            (vars.map (fun v => (v.attributes.env_variable, v.attributes.default_value))).reverse
            v.attributes.env_variable =
          some v.attributes.default_value :=
      recordLookup_of_nodup hnodup2 hmem2
    rw [hrev2]
    rfl
  refine ⟨huserPart, hdefaultPart, ?_⟩
  intro v hv
  by_cases hin : v.attributes.env_variable ∈ user.map Prod.fst
  · obtain ⟨kv, hkv, hk⟩ := List.mem_map.mp hin
    rw [← hk, huserPart kv hkv]
    rfl
  · rw [hdefaultPart v hv hin]
    rfl

def demoVarMotd : PterodactylEggVariable :=
  { attributes :=
    { name := "Server MOTD", description := "message of the day",
      env_variable := "SERVER_MOTD", default_value := "A Minecraft Server",
      user_viewable := true, user_editable := true } }

def demoVarPlayers : PterodactylEggVariable :=
  { attributes :=
    { name := "Max Players", description := "player slots",
      env_variable := "MAX_PLAYERS", default_value := "20",
      user_viewable := true, user_editable := true } }

/-- C6 witness: a concrete merge of two egg variables with one override. -/
theorem C6_environment_merge_witness :
    recordLookup (buildFinalEnvironment [demoVarMotd, demoVarPlayers]
      (some [("SERVER_MOTD", "Welcome!")])) "SERVER_MOTD" = some "Welcome!" ∧
    recordLookup (buildFinalEnvironment [demoVarMotd, demoVarPlayers]
      (some [("SERVER_MOTD", "Welcome!")])) "MAX_PLAYERS" = some "20" := by
  have h := C6_environment_merge [demoVarMotd, demoVarPlayers]
    [("SERVER_MOTD", "Welcome!")] (by decide) (by decide)
  exact ⟨h.1 ("SERVER_MOTD", "Welcome!") (by decide),
    h.2.1 demoVarPlayers (by decide) (by decide)⟩

/-! ## Local refusal of creation on missing configuration (C7) -/

/-- C7: when the parsed default owner id or default node id is absent
(`undefined` after the startup parse, covering both a missing and a
non-numeric environment value), a create-server invocation returns the
configuration-error payload and performs no backend call: no catalog
listing, no allocation lookup, no create request. -/
theorem C7_creation_refused_locally (ownerId nodeId : Option Nat) (b : Backend)
    (tc : ToolInvocation) (hname : tc.name = "create_pterodactyl_server")
    (hcfg : ownerId = none ∨ nodeId = none) :
    dispatchToolCall ownerId nodeId b tc = (.errorPayload configErrorMessage, []) := by
  rcases hcfg with h | h <;> subst h <;>
    simp [dispatchToolCall, createPterodactylServerHandler, hname, truthyNat]

def demoBackend : Backend :=
  { servers := [demoServerA, demoServerB],
    resources := fun _ => some { current_state := .running },
    power := fun _ _ => true,
    nests := [],
    eggDetails := fun _ _ => none,
    allocation := fun _ => none,
    create := fun _ => none }

def demoCreateInvocation : ToolInvocation :=
  { id := "call-9", name := "create_pterodactyl_server",
    argServerName := "NewServer", argEggName := "Vanilla Minecraft" }

/-- C7 witness: with no owner id configured, the concrete create invocation
is refused locally. -/
theorem C7_creation_refused_locally_witness :
    dispatchToolCall none (some 7) demoBackend demoCreateInvocation =
      (.errorPayload configErrorMessage, []) :=
  C7_creation_refused_locally none (some 7) demoBackend demoCreateInvocation
    rfl (Or.inl rfl)

/-! ## Resolved identifiers come from the listing (C10) -/

theorem resolveServerId_mem {servers : List PterodactylServer} {q resolvedId : String}
    (h : resolveServerId servers q = some resolvedId) :
    ∃ s ∈ servers, s.attributes.identifier = resolvedId := by
  simp only [resolveServerId] at h
  rcases hf : servers.find? (fun s => s.attributes.identifier == q) with _ | t
  · rw [hf] at h
    by_cases hl : (matchingByName servers q).length = 1
    · rw [if_pos hl] at h
      rcases hm : (matchingByName servers q).head? with _ | s
      · rw [hm] at h
        cases h
      · rw [hm] at h
        have hs : s ∈ matchingByName servers q := by
          rcases he : matchingByName servers q with _ | ⟨a, rest⟩
          · rw [he] at hm
            cases hm
          · rw [he] at hm
            cases hm
            exact List.mem_cons_self _ _
        have hmem : s ∈ servers := List.mem_of_mem_filter hs
        simp only [Option.map_some', Option.some.injEq] at h
        exact ⟨s, hmem, h⟩
    · rw [if_neg hl] at h
      cases h
  · rw [hf] at h
    simp only [Option.map_some', Option.some.injEq] at h
    refine ⟨t, List.mem_of_find?_eq_some hf, h⟩

/-- The invariant C10 asserts of one backend call: any live-resource or
power-signal call targets the identifier of a server of the listing. -/
def callTargetsListed (servers : List PterodactylServer) : BackendCall → Prop
  | .getResources targetId => ∃ s ∈ servers, s.attributes.identifier = targetId
  | .powerSignal targetId _ => ∃ s ∈ servers, s.attributes.identifier = targetId
  | _ => True

theorem findEggLoop_calls (getEgg : Nat → Nat → Option PterodactylEgg)
    (eggName : String) (nestName : Option String) :
    ∀ nests : List PterodactylNest,
      ∀ c ∈ (findEggLoop getEgg eggName nestName nests).2.2,
        ∃ nId eId, c = BackendCall.eggDetailsCall nId eId := by
  intro nests
  induction nests with
  | nil =>
    intro c hc
    simp [findEggLoop] at hc
  | cons nest rest ih =>
    intro c hc
    simp only [findEggLoop] at hc
    split at hc
    · exact ih c hc
    · split at hc
      · simp only [List.mem_singleton] at hc
        exact ⟨_, _, hc⟩
      · exact ih c hc

theorem createHandler_calls (ownerId nodeId : Option Nat) (b : Backend)
    (tc : ToolInvocation) :
    ∀ c ∈ (createPterodactylServerHandler ownerId nodeId b tc).2,
      callTargetsListed b.servers c := by
  intro c hc
  simp only [createPterodactylServerHandler] at hc
  split at hc
  · simp at hc
  · have hloop := findEggLoop_calls b.eggDetails (jsToLower tc.argEggName)
      (tc.argNestName.map jsToLower) b.nests
    split at hc
    · split at hc
      · simp only [List.mem_append, List.mem_cons, List.mem_singleton,
          List.not_mem_nil, or_false] at hc
        rcases hc with (rfl | hc) | rfl
        · trivial
        · obtain ⟨nId, eId, rfl⟩ := hloop c hc
          trivial
        · trivial
      · split at hc <;>
        · simp only [List.mem_append, List.mem_cons, List.mem_singleton,
            List.not_mem_nil, or_false] at hc
          rcases hc with (rfl | hc) | rfl | rfl
          · trivial
          · obtain ⟨nId, eId, rfl⟩ := hloop c hc
            trivial
          · trivial
          · trivial
    · simp only [List.mem_cons] at hc
      rcases hc with rfl | hc
      · trivial
      · obtain ⟨nId, eId, rfl⟩ := hloop c hc
        trivial

/-- C10: every identifier `resolveServerId` returns is the identifier of a
server of the listing it fetched, and consequently every live-resource or
power-signal call the tool dispatch issues targets a listed server. -/
theorem C10_resolved_targets_listed (ownerId nodeId : Option Nat) (b : Backend)
    (tc : ToolInvocation) :
    (∀ q resolvedId, resolveServerId b.servers q = some resolvedId →
        ∃ s ∈ b.servers, s.attributes.identifier = resolvedId) ∧
    (∀ c ∈ (dispatchToolCall ownerId nodeId b tc).2,
        callTargetsListed b.servers c) := by
  refine ⟨fun q resolvedId h => resolveServerId_mem h, ?_⟩
  have hgetD : ∀ q : String, (resolveServerId b.servers q).getD "" ≠ "" →
      ∃ s ∈ b.servers,
        s.attributes.identifier = (resolveServerId b.servers q).getD "" := by
    intro q hq
    rcases hr : resolveServerId b.servers q with _ | x
    · rw [hr] at hq
      simp at hq
    · simpa using resolveServerId_mem hr
  intro c hc
  simp only [dispatchToolCall] at hc
  split_ifs at hc with h1 h2 h3 h4 h5 h6 h7 h8 h9
  · simp only [List.mem_singleton] at hc
    subst hc
    trivial
  · simp only [List.mem_cons, List.not_mem_nil, or_false] at hc
    rcases hc with rfl | rfl
    · trivial
    · exact hgetD tc.argServerId h3
  · simp only [List.mem_singleton] at hc
    subst hc
    trivial
  · simp only [getServersWithOnlineStatus, List.mem_cons] at hc
    rcases hc with rfl | hc
    · trivial
    · obtain ⟨s, hs, rfl⟩ := List.mem_map.mp hc
      exact ⟨s, hs, rfl⟩
  · simp only [List.mem_cons, List.not_mem_nil, or_false] at hc
    rcases hc with rfl | rfl
    · trivial
    · exact hgetD tc.argServerId h6
  · simp only [List.mem_singleton] at hc
    subst hc
    trivial
  · simp only [List.mem_singleton] at hc
    subst hc
    trivial
  · have hloop := findEggLoop_calls b.eggDetails (jsToLower tc.argEggName)
      (tc.argNestName.map jsToLower) b.nests
    split at hc <;>
    · simp only [List.mem_cons] at hc
      rcases hc with rfl | hc
      · trivial
      · obtain ⟨nId, eId, rfl⟩ := hloop c hc
        trivial
  · exact createHandler_calls ownerId nodeId b tc c hc
  · simp at hc

/-- C10 witness: a concrete power-signal dispatch whose emitted power call
targets a listed server. -/
theorem C10_resolved_targets_listed_witness :
    ∃ s ∈ demoBackend.servers, s.attributes.identifier = "aaa11111" :=
  (C10_resolved_targets_listed none none demoBackend demoInvocationList).1
    "aaa11111" "aaa11111" (by decide)

/-! ## The orchestrator loop of `processUserQueryWithLLM` (C1)

The reasoning engine is the oracle `complete`, a function of the
conversation so far; the per-invocation executor is the oracle `execOne` of
`execBatch`; `parseUserMessage` stands for the final `JSON.parse` sniff for
a `user_message` field.  The trace records every completion request
(`modelCall`) and every executed batch (`toolBatch`), in order.  The loop
recursion is driven by a fuel argument that `processUserQueryWithLLM` fixes
at `maxIterations`: since the loop guard `iterationCount < maxIterations` is
also part of the body, the fuel is an upper bound that is never the reason
the loop stops (the theorems carry `iterationCount + fuel = maxIterations`).
-/

/-- The message one completion returns: `tool_calls` is absent (`none`) or
the non-empty list of requested invocations, `content` the optional text. -/
structure ModelMsg where
  tool_calls : Option (List ToolInvocation)
  content : Option String
  deriving DecidableEq

inductive ChatMsg
  | system (content : String)
  | user (content : String)
  | assistant (m : ModelMsg)
  | toolResult (r : ToolResultMsg)
  deriving DecidableEq

inductive LoopEvent
  | modelCall
  | toolBatch (batch : List ToolInvocation)
  deriving DecidableEq

/-- `maxIterations = 5`, the safety break for tool call loops. -/
def maxIterations : Nat := 5

def loopApologyMessage : String :=
  "I seem to be stuck in a loop trying to figure that out. Could you simplify your request?"

def emptyContentApology : String :=
  "I processed the information, but I'm having a little trouble phrasing my response."

/-- The tail of `processUserQueryWithLLM` (lines 497-523): with text content
present the code first sniffs the content for a JSON `user_message` field
(the oracle `parseUserMessage` is that try block) and otherwise returns the
trimmed content; absent content yields the fixed phrasing apology. -/
def finalizeResponse (parseUserMessage : String → Option String)
    (responseMessage : ModelMsg) : String :=
  match responseMessage.content with
  | some c =>
    match parseUserMessage c with
    | some userMessage => userMessage
    | none => c.trim
  | none => emptyContentApology

/-- The `while (responseMessage.tool_calls && iterationCount < maxIterations)`
loop (lines 261-495): on tool calls, push the assistant message, execute the
batch, push the results; if the incremented counter has reached the cap,
return the fixed loop apology; otherwise request the next completion and
continue.  Returns the events of the rest of the run and the returned
string. -/
def orchLoop (complete : List ChatMsg → ModelMsg)
    (execOne : ToolInvocation → Except String ToolContent)
    (parseUserMessage : String → Option String) :
    Nat → List ChatMsg → ModelMsg → Nat → List LoopEvent × String
  | 0, _, responseMessage, _ => ([], finalizeResponse parseUserMessage responseMessage)
  | fuel + 1, messages, responseMessage, iterationCount =>
    match responseMessage.tool_calls with
    | none => ([], finalizeResponse parseUserMessage responseMessage)
    | some toolCalls =>
      if iterationCount < maxIterations then
        let messages1 := messages ++ [ChatMsg.assistant responseMessage]
        let results := execBatch execOne toolCalls
        let messages2 := messages1 ++ results.map ChatMsg.toolResult
        if maxIterations ≤ iterationCount + 1 then
          ([LoopEvent.toolBatch toolCalls], loopApologyMessage)
        else
          let next := complete messages2
          let rest := orchLoop complete execOne parseUserMessage fuel messages2 next
            (iterationCount + 1)
          (LoopEvent.toolBatch toolCalls :: LoopEvent.modelCall :: rest.1, rest.2)
      else ([], finalizeResponse parseUserMessage responseMessage)

def systemPrompt : String :=
  "You are Asuna, a helpful Discord bot managing game servers."

/-- `processUserQueryWithLLM`: seed the conversation with the system
instruction and the user query, request the initial completion (the leading
`modelCall` event), then run the tool-call loop.  The guards before this
point (missing OpenAI client, empty query) return fixed strings with no
model call, and the surrounding try/catch turns an engine failure into a
fixed apology; both lie outside the loop that C1 bounds. -/
def processUserQueryWithLLM (userQuery : String)
    (complete : List ChatMsg → ModelMsg)
    (execOne : ToolInvocation → Except String ToolContent)
    (parseUserMessage : String → Option String) : List LoopEvent × String :=
  let messages := [ChatMsg.system systemPrompt, ChatMsg.user userQuery]
  let responseMessage := complete messages
  let rest := orchLoop complete execOne parseUserMessage maxIterations messages
    responseMessage 0
  (LoopEvent.modelCall :: rest.1, rest.2)

def isModelCall : LoopEvent → Bool
  | .modelCall => true
  | .toolBatch _ => false

/-- Model round-trips recorded in a trace. -/
def countModelCalls (events : List LoopEvent) : Nat :=
  (events.filter isModelCall).length

/-- Executed tool batches recorded in a trace. -/
def countToolBatches (events : List LoopEvent) : Nat :=
  (events.filter (fun e => !isModelCall e)).length

theorem orchLoop_spec (complete : List ChatMsg → ModelMsg)
    (execOne : ToolInvocation → Except String ToolContent)
    (parseUserMessage : String → Option String) :
    ∀ (fuel : Nat) (messages : List ChatMsg) (responseMessage : ModelMsg)
      (iterationCount : Nat),
      iterationCount + fuel = maxIterations → 0 < fuel →
      countToolBatches (orchLoop complete execOne parseUserMessage fuel messages
          responseMessage iterationCount).1 ≤ fuel ∧
      countModelCalls (orchLoop complete execOne parseUserMessage fuel messages
          responseMessage iterationCount).1 + 1 ≤ fuel ∧
      (countToolBatches (orchLoop complete execOne parseUserMessage fuel messages
          responseMessage iterationCount).1 = fuel →
        (orchLoop complete execOne parseUserMessage fuel messages
          responseMessage iterationCount).2 = loopApologyMessage ∧
        countModelCalls (orchLoop complete execOne parseUserMessage fuel messages
          responseMessage iterationCount).1 = fuel - 1 ∧
        ∃ batch, (orchLoop complete execOne parseUserMessage fuel messages
          responseMessage iterationCount).1.getLast? =
            some (LoopEvent.toolBatch batch)) := by
  intro fuel
  induction fuel with
  | zero =>
    intro _ _ _ _ hpos
    exact absurd hpos (by omega)
  | succ fuel ih =>
    intro messages responseMessage iterationCount hsum _
    rcases hm : responseMessage.tool_calls with _ | toolCalls
    · simp only [orchLoop, hm, countToolBatches, countModelCalls, isModelCall,
        List.filter_nil, List.length_nil]
      refine ⟨by omega, by omega, ?_⟩
      intro hcap
      omega
    · have hlt : iterationCount < maxIterations := by omega
      simp only [orchLoop, hm, if_pos hlt]
      by_cases hcap : maxIterations ≤ iterationCount + 1
      · have hfuel : fuel = 0 := by omega
        subst hfuel
        rw [if_pos hcap]
        refine ⟨?_, ?_, ?_⟩
        · simp [countToolBatches, isModelCall]
        · simp [countModelCalls, isModelCall]
        · intro _
          refine ⟨rfl, ?_, toolCalls, rfl⟩
          simp [countModelCalls, isModelCall]
      · have hfpos : 0 < fuel := by omega
        rw [if_neg hcap]
        have hrec := ih
          ((messages ++ [ChatMsg.assistant responseMessage]) ++
            (execBatch execOne toolCalls).map ChatMsg.toolResult)
          (complete ((messages ++ [ChatMsg.assistant responseMessage]) ++
            (execBatch execOne toolCalls).map ChatMsg.toolResult))
          (iterationCount + 1) (by omega) hfpos
        set rest := orchLoop complete execOne parseUserMessage fuel
          ((messages ++ [ChatMsg.assistant responseMessage]) ++
            (execBatch execOne toolCalls).map ChatMsg.toolResult)
          (complete ((messages ++ [ChatMsg.assistant responseMessage]) ++
            (execBatch execOne toolCalls).map ChatMsg.toolResult))
          (iterationCount + 1) with hrest
        have hcount1 :
            countToolBatches (LoopEvent.toolBatch toolCalls ::
              LoopEvent.modelCall :: rest.1) = countToolBatches rest.1 + 1 := by
          simp [countToolBatches, isModelCall]
        have hcount2 :
            countModelCalls (LoopEvent.toolBatch toolCalls ::
              LoopEvent.modelCall :: rest.1) = countModelCalls rest.1 + 1 := by
          simp [countModelCalls, isModelCall]
        refine ⟨?_, ?_, ?_⟩
        · simp only [hcount1]
          omega
        · simp only [hcount2]
          omega
        · intro hfull
          simp only [hcount1] at hfull
          have hTB : countToolBatches rest.1 = fuel := by omega
          obtain ⟨hres, hmc, batch, hlast⟩ := hrec.2.2 hTB
          refine ⟨hres, ?_, batch, ?_⟩
          · simp only [hcount2]
            omega
          · have hne : rest.1 ≠ [] := by
              intro hnil
              rw [hnil] at hTB
              have hzero : (0 : Nat) = fuel := hTB
              omega
            rcases he : rest.1 with _ | ⟨e0, es⟩
            · exact absurd he hne
            · rw [he] at hlast
              rw [List.getLast?_cons_cons, List.getLast?_cons_cons]
              exact hlast

/-- C1: one utterance makes at most `maxIterations = 5` model round-trips
and executes at most 5 tool batches; when the iteration counter reaches the
cap (the 5th batch runs), the run returns the fixed stuck-in-a-loop apology,
has made exactly 5 model calls and 5 batches, and the trace ends with that
final batch: nothing (no model call, no tool call) follows it. -/
theorem C1_iteration_cap (userQuery : String) (complete : List ChatMsg → ModelMsg)
    (execOne : ToolInvocation → Except String ToolContent)
    (parseUserMessage : String → Option String) :
    countModelCalls (processUserQueryWithLLM userQuery complete execOne
        parseUserMessage).1 ≤ maxIterations ∧
    countToolBatches (processUserQueryWithLLM userQuery complete execOne
        parseUserMessage).1 ≤ maxIterations ∧
    (countToolBatches (processUserQueryWithLLM userQuery complete execOne
        parseUserMessage).1 = maxIterations →
      (processUserQueryWithLLM userQuery complete execOne parseUserMessage).2 =
        loopApologyMessage ∧
      countModelCalls (processUserQueryWithLLM userQuery complete execOne
        parseUserMessage).1 = maxIterations ∧
      ∃ batch, (processUserQueryWithLLM userQuery complete execOne
        parseUserMessage).1.getLast? = some (LoopEvent.toolBatch batch)) := by
  have h := orchLoop_spec complete execOne parseUserMessage maxIterations
    [ChatMsg.system systemPrompt, ChatMsg.user userQuery]
    (complete [ChatMsg.system systemPrompt, ChatMsg.user userQuery]) 0
    (by omega) (by decide)
  set rest := orchLoop complete execOne parseUserMessage maxIterations
    [ChatMsg.system systemPrompt, ChatMsg.user userQuery]
    (complete [ChatMsg.system systemPrompt, ChatMsg.user userQuery]) 0 with hrest
  have hshape :
      processUserQueryWithLLM userQuery complete execOne parseUserMessage =
        (LoopEvent.modelCall :: rest.1, rest.2) := rfl
  rw [hshape]
  have hc1 : countModelCalls (LoopEvent.modelCall :: rest.1) =
      countModelCalls rest.1 + 1 := by
    simp [countModelCalls, isModelCall]
  have hc2 : countToolBatches (LoopEvent.modelCall :: rest.1) =
      countToolBatches rest.1 := by
    simp [countToolBatches, isModelCall]
  refine ⟨?_, ?_, ?_⟩
  · simp only [hc1]
    omega
  · simp only [hc2]
    omega
  · intro hfull
    simp only [hc2] at hfull
    obtain ⟨hres, hmc, batch, hlast⟩ := h.2.2 hfull
    refine ⟨hres, ?_, batch, ?_⟩
    · simp only [hc1]
      omega
    · have hne : rest.1 ≠ [] := by
        intro hnil
        rw [hnil] at hfull
        have hzero : (0 : Nat) = 5 := hfull
        omega
      rcases he : rest.1 with _ | ⟨e0, es⟩
      · exact absurd he hne
      · rw [he] at hlast
        rw [List.getLast?_cons_cons]
        exact hlast

/-! ## The provisioning monitor (`monitorServerInstallationAndStartup`)

The monitor is a polling loop in two phases.  Its environment is a bundle of
oracles indexed by the iteration number of the respective phase:

* `installObs i`: what the phase-1 poll of iteration `i` observes —
  `listServers()` followed by a search for the created server's uuid; `none`
  when the server is not yet in the listing, `some b` when it is found with
  `is_installing = b`;
* `resourceObs j`: what the phase-2 poll of iteration `j` observes —
  `getServerResources(identifier)`, `none` for a failed fetch;
* `clock1While i` / `clock1Inner i`: the values `Date.now()` returns at the
  loop-entry check and at the post-sleep check of phase-1 iteration `i`
  (the code reads the clock twice per iteration), and likewise
  `clock2While j` / `clock2Inner j` for phase 2.

Elapsed time is compared as in the source, `now - startTime` against the
ten-minute budget (truncated Nat subtraction agrees with the source for a
monotone clock).  Every poll, recovery start-signal and channel notification
is recorded as a `MonitorEvent`.  The recursion is fuel-bounded
(`outOfFuel` marks exhaustion, never reached when the clock eventually
passes the budget within the fuel).  The Discord channel `send` calls are
modelled as infallible event emissions; the enclosing catch (which turns an
exception while polling or signaling into one error notification) is
unreachable here because the gateway wrappers never throw (C9). -/

structure MonitorEnv where
  installObs : Nat → Option Bool
  resourceObs : Nat → Option CurrentState
  clock1While : Nat → Nat
  clock1Inner : Nat → Nat
  clock2While : Nat → Nat
  clock2Inner : Nat → Nat

/-- `monitoringTimeoutMs = 10 * 60 * 1000`: the total time budget. -/
def monitoringTimeoutMs : Nat := 10 * 60 * 1000

inductive MonitorEvent
  | pollListServers (found : Option Bool)
  | pollResources (state : Option CurrentState)
  | startSignal
  | notifyInstallTimeout
  | notifySuccess
  | notifyRunningTimeout
  deriving DecidableEq

inductive Phase1Result
  | finishedInstall
  | timedOut
  | silentExit
  | outOfFuel
  deriving DecidableEq

inductive MonitorOutcome
  | succeeded
  | installTimedOut
  | runningTimedOut
  | installSilentExit
  | runningSilentExit
  | outOfFuel
  deriving DecidableEq

/-- Phase 1 (lines 548-582): while the server is still installing and the
budget has not elapsed at the loop-entry clock read, poll the listing; a
found server with a cleared `is_installing` flag breaks out; otherwise sleep
and re-read the clock — if the budget has elapsed, send the
installation-timeout notification and stop.  Leaving the loop with the flag
still set (`if (isStillInstalling) return`) emits nothing. -/
def monitorPhase1 (env : MonitorEnv) (startTime : Nat) :
    Nat → Nat → List MonitorEvent × Phase1Result
  | 0, _ => ([], .outOfFuel)
  | fuel + 1, i =>
    if env.clock1While i - startTime < monitoringTimeoutMs then
      match env.installObs i with
      | some false => ([.pollListServers (env.installObs i)], .finishedInstall)
      | _ =>
        if monitoringTimeoutMs ≤ env.clock1Inner i - startTime then
          ([.pollListServers (env.installObs i), .notifyInstallTimeout], .timedOut)
        else
          let rest := monitorPhase1 env startTime fuel (i + 1)
          (.pollListServers (env.installObs i) :: rest.1, rest.2)
    else ([], .silentExit)

/-- Phase 2 (lines 585-619): while the server is not yet running and the
budget has not elapsed at the loop-entry clock read, poll the live resource
state; `running` sends the success notification and stops; `offline` sends
one recovery start power-signal; any other observation (including a failed
fetch) just waits.  After the sleep the clock is re-read — if the budget has
elapsed, send the running-timeout notification and stop.  Leaving the loop
through the entry check emits nothing (the function simply ends). -/
def monitorPhase2 (env : MonitorEnv) (startTime : Nat) :
    Nat → Nat → List MonitorEvent × MonitorOutcome
  | 0, _ => ([], .outOfFuel)
  | fuel + 1, j =>
    if env.clock2While j - startTime < monitoringTimeoutMs then
      match env.resourceObs j with
      | some .running =>
        ([.pollResources (env.resourceObs j), .notifySuccess], .succeeded)
      | some .offline =>
        if monitoringTimeoutMs ≤ env.clock2Inner j - startTime then
          ([.pollResources (env.resourceObs j), .startSignal,
            .notifyRunningTimeout], .runningTimedOut)
        else
          let rest := monitorPhase2 env startTime fuel (j + 1)
          (.pollResources (env.resourceObs j) :: .startSignal :: rest.1, rest.2)
      | _ =>
        if monitoringTimeoutMs ≤ env.clock2Inner j - startTime then
          ([.pollResources (env.resourceObs j), .notifyRunningTimeout],
            .runningTimedOut)
        else
          let rest := monitorPhase2 env startTime fuel (j + 1)
          (.pollResources (env.resourceObs j) :: rest.1, rest.2)
    else ([], .runningSilentExit)

/-- The whole monitor: phase 1, then — only when installation finished —
phase 2.  Both phases share the start time and budget. -/
def monitorServerInstallationAndStartup (env : MonitorEnv)
    (startTime fuel : Nat) : List MonitorEvent × MonitorOutcome :=
  let phase1 := monitorPhase1 env startTime fuel 0
  match phase1.2 with
  | .finishedInstall =>
    let phase2 := monitorPhase2 env startTime fuel 0
    (phase1.1 ++ phase2.1, phase2.2)
  | .timedOut => (phase1.1, .installTimedOut)
  | .silentExit => (phase1.1, .installSilentExit)
  | .outOfFuel => (phase1.1, .outOfFuel)

def isNotification : MonitorEvent → Bool
  | .notifyInstallTimeout => true
  | .notifySuccess => true
  | .notifyRunningTimeout => true
  | _ => false

/-- Channel notifications recorded in a trace. -/
def countNotifications (events : List MonitorEvent) : Nat :=
  (events.filter isNotification).length

def isOfflinePoll : MonitorEvent → Bool
  | .pollResources (some .offline) => true
  | _ => false

/-- Resource polls that observed `offline`. -/
def countOfflinePolls (events : List MonitorEvent) : Nat :=
  (events.filter isOfflinePoll).length

def isStartSignal : MonitorEvent → Bool
  | .startSignal => true
  | _ => false

/-- Recovery start power-signals recorded in a trace. -/
def countStartSignals (events : List MonitorEvent) : Nat :=
  (events.filter isStartSignal).length

/-- The checks under which phase-2 iteration `k` neither stops nor notifies:
its loop-entry clock read is within budget, its poll does not observe
`running`, and its post-sleep clock read is within budget. -/
def phase2Continues (env : MonitorEnv) (startTime k : Nat) : Prop :=
  env.clock2While k - startTime < monitoringTimeoutMs ∧
  env.resourceObs k ≠ some CurrentState.running ∧
  env.clock2Inner k - startTime < monitoringTimeoutMs

theorem monitorPhase2_succeeded_iff (env : MonitorEnv) (t : Nat) :
    ∀ (fuel j : Nat),
      (monitorPhase2 env t fuel j).2 = .succeeded ↔
        ∃ j', j ≤ j' ∧ j' < j + fuel ∧
          (∀ k, j ≤ k → k < j' → phase2Continues env t k) ∧
          env.clock2While j' - t < monitoringTimeoutMs ∧
          env.resourceObs j' = some .running := by
  intro fuel
  induction fuel with
  | zero =>
    intro j
    constructor
    · intro h
      exact absurd h (by simp [monitorPhase2])
    · rintro ⟨j', h1, h2, _⟩
      omega
  | succ fuel ih =>
    intro j
    by_cases hw : env.clock2While j - t < monitoringTimeoutMs
    · rcases hobs : env.resourceObs j with _ | st
      · have hne : env.resourceObs j ≠ some CurrentState.running := by
          rw [hobs]
          simp
        by_cases hi : monitoringTimeoutMs ≤ env.clock2Inner j - t
        · simp only [monitorPhase2, hobs, if_pos hw, if_pos hi]
          constructor
          · intro h
            cases h
          · rintro ⟨j', hj1, hj2, hcont, hw', hr⟩
            rcases Nat.lt_or_ge j j' with hlt | hge
            · exact absurd (hcont j (Nat.le_refl j) hlt).2.2 (by omega)
            · have : j' = j := by omega
              subst this
              rw [hobs] at hr
              cases hr
        · simp only [monitorPhase2, hobs, if_pos hw, if_neg hi]
          rw [ih (j + 1)]
          constructor
          · rintro ⟨j', hj1, hj2, hcont, hw', hr⟩
            refine ⟨j', by omega, by omega, ?_, hw', hr⟩
            intro k hk1 hk2
            rcases Nat.eq_or_lt_of_le hk1 with heq | hlt
            · subst heq
              exact ⟨hw, hne, by omega⟩
            · exact hcont k (by omega) hk2
          · rintro ⟨j', hj1, hj2, hcont, hw', hr⟩
            have hjne : j' ≠ j := by
              intro hc
              subst hc
              rw [hobs] at hr
              cases hr
            refine ⟨j', by omega, by omega, ?_, hw', hr⟩
            intro k hk1 hk2
            exact hcont k (by omega) hk2
      · cases st
        · simp only [monitorPhase2, hobs, if_pos hw]
          constructor
          · intro _
            exact ⟨j, Nat.le_refl j, by omega,
              fun k hk1 hk2 => absurd hk2 (by omega), hw, hobs⟩
          · intro _
            trivial
        · have hne : env.resourceObs j ≠ some CurrentState.running := by
            rw [hobs]
            simp
          by_cases hi : monitoringTimeoutMs ≤ env.clock2Inner j - t
          · simp only [monitorPhase2, hobs, if_pos hw, if_pos hi]
            constructor
            · intro h
              cases h
            · rintro ⟨j', hj1, hj2, hcont, hw', hr⟩
              rcases Nat.lt_or_ge j j' with hlt | hge
              · exact absurd (hcont j (Nat.le_refl j) hlt).2.2 (by omega)
              · have : j' = j := by omega
                subst this
                rw [hobs] at hr
                cases hr
          · simp only [monitorPhase2, hobs, if_pos hw, if_neg hi]
            rw [ih (j + 1)]
            constructor
            · rintro ⟨j', hj1, hj2, hcont, hw', hr⟩
              refine ⟨j', by omega, by omega, ?_, hw', hr⟩
              intro k hk1 hk2
              rcases Nat.eq_or_lt_of_le hk1 with heq | hlt
              · subst heq
                exact ⟨hw, hne, by omega⟩
              · exact hcont k (by omega) hk2
            · rintro ⟨j', hj1, hj2, hcont, hw', hr⟩
              have hjne : j' ≠ j := by
                intro hc
                subst hc
                rw [hobs] at hr
                cases hr
              refine ⟨j', by omega, by omega, ?_, hw', hr⟩
              intro k hk1 hk2
              exact hcont k (by omega) hk2
        · have hne : env.resourceObs j ≠ some CurrentState.running := by
            rw [hobs]
            simp
          by_cases hi : monitoringTimeoutMs ≤ env.clock2Inner j - t
          · simp only [monitorPhase2, hobs, if_pos hw, if_pos hi]
            constructor
            · intro h
              cases h
            · rintro ⟨j', hj1, hj2, hcont, hw', hr⟩
              rcases Nat.lt_or_ge j j' with hlt | hge
              · exact absurd (hcont j (Nat.le_refl j) hlt).2.2 (by omega)
              · have : j' = j := by omega
                subst this
                rw [hobs] at hr
                cases hr
          · simp only [monitorPhase2, hobs, if_pos hw, if_neg hi]
            rw [ih (j + 1)]
            constructor
            · rintro ⟨j', hj1, hj2, hcont, hw', hr⟩
              refine ⟨j', by omega, by omega, ?_, hw', hr⟩
              intro k hk1 hk2
              rcases Nat.eq_or_lt_of_le hk1 with heq | hlt
              · subst heq
                exact ⟨hw, hne, by omega⟩
              · exact hcont k (by omega) hk2
            · rintro ⟨j', hj1, hj2, hcont, hw', hr⟩
              have hjne : j' ≠ j := by
                intro hc
                subst hc
                rw [hobs] at hr
                cases hr
              refine ⟨j', by omega, by omega, ?_, hw', hr⟩
              intro k hk1 hk2
              exact hcont k (by omega) hk2
        · have hne : env.resourceObs j ≠ some CurrentState.running := by
            rw [hobs]
            simp
          by_cases hi : monitoringTimeoutMs ≤ env.clock2Inner j - t
          · simp only [monitorPhase2, hobs, if_pos hw, if_pos hi]
            constructor
            · intro h
              cases h
            · rintro ⟨j', hj1, hj2, hcont, hw', hr⟩
              rcases Nat.lt_or_ge j j' with hlt | hge
              · exact absurd (hcont j (Nat.le_refl j) hlt).2.2 (by omega)
              · have : j' = j := by omega
                subst this
                rw [hobs] at hr
                cases hr
          · simp only [monitorPhase2, hobs, if_pos hw, if_neg hi]
            rw [ih (j + 1)]
            constructor
            · rintro ⟨j', hj1, hj2, hcont, hw', hr⟩
              refine ⟨j', by omega, by omega, ?_, hw', hr⟩
              intro k hk1 hk2
              rcases Nat.eq_or_lt_of_le hk1 with heq | hlt
              · subst heq
                exact ⟨hw, hne, by omega⟩
              · exact hcont k (by omega) hk2
            · rintro ⟨j', hj1, hj2, hcont, hw', hr⟩
              have hjne : j' ≠ j := by
                intro hc
                subst hc
                rw [hobs] at hr
                cases hr
              refine ⟨j', by omega, by omega, ?_, hw', hr⟩
              intro k hk1 hk2
              exact hcont k (by omega) hk2
    · simp only [monitorPhase2, if_neg hw]
      constructor
      · intro h
        cases h
      · rintro ⟨j', hj1, hj2, hcont, hw', hr⟩
        rcases Nat.lt_or_ge j j' with hlt | hge
        · exact absurd (hcont j (Nat.le_refl j) hlt).1 hw
        · have : j' = j := by omega
          subst this
          exact absurd hw' hw

theorem monitorPhase1_timedOut_budget (env : MonitorEnv) (t : Nat) :
    ∀ (fuel i : Nat), (monitorPhase1 env t fuel i).2 = .timedOut →
      ∃ i', monitoringTimeoutMs ≤ env.clock1Inner i' - t := by
  intro fuel
  induction fuel with
  | zero =>
    intro i h
    exact absurd h (by simp [monitorPhase1])
  | succ fuel ih =>
    intro i h
    by_cases hw : env.clock1While i - t < monitoringTimeoutMs
    · rcases hobs : env.installObs i with _ | b
      · simp only [monitorPhase1, hobs, if_pos hw] at h
        by_cases hi : monitoringTimeoutMs ≤ env.clock1Inner i - t
        · exact ⟨i, hi⟩
        · rw [if_neg hi] at h
          exact ih (i + 1) h
      · cases b
        · simp only [monitorPhase1, hobs, if_pos hw] at h
          cases h
        · simp only [monitorPhase1, hobs, if_pos hw] at h
          by_cases hi : monitoringTimeoutMs ≤ env.clock1Inner i - t
          · exact ⟨i, hi⟩
          · rw [if_neg hi] at h
            exact ih (i + 1) h
    · simp only [monitorPhase1, if_neg hw] at h
      cases h

theorem monitorPhase2_timedOut_budget (env : MonitorEnv) (t : Nat) :
    ∀ (fuel j : Nat), (monitorPhase2 env t fuel j).2 = .runningTimedOut →
      ∃ j', monitoringTimeoutMs ≤ env.clock2Inner j' - t := by
  intro fuel
  induction fuel with
  | zero =>
    intro j h
    exact absurd h (by simp [monitorPhase2])
  | succ fuel ih =>
    intro j h
    by_cases hw : env.clock2While j - t < monitoringTimeoutMs
    · rcases hobs : env.resourceObs j with _ | st
      · simp only [monitorPhase2, hobs, if_pos hw] at h
        by_cases hi : monitoringTimeoutMs ≤ env.clock2Inner j - t
        · exact ⟨j, hi⟩
        · rw [if_neg hi] at h
          exact ih (j + 1) h
      · cases st
        · simp only [monitorPhase2, hobs, if_pos hw] at h
          cases h
        · simp only [monitorPhase2, hobs, if_pos hw] at h
          by_cases hi : monitoringTimeoutMs ≤ env.clock2Inner j - t
          · exact ⟨j, hi⟩
          · rw [if_neg hi] at h
            exact ih (j + 1) h
        · simp only [monitorPhase2, hobs, if_pos hw] at h
          by_cases hi : monitoringTimeoutMs ≤ env.clock2Inner j - t
          · exact ⟨j, hi⟩
          · rw [if_neg hi] at h
            exact ih (j + 1) h
        · simp only [monitorPhase2, hobs, if_pos hw] at h
          by_cases hi : monitoringTimeoutMs ≤ env.clock2Inner j - t
          · exact ⟨j, hi⟩
          · rw [if_neg hi] at h
            exact ih (j + 1) h
    · simp only [monitorPhase2, if_neg hw] at h
      cases h

theorem monitorPhase2_signals (env : MonitorEnv) (t : Nat) :
    ∀ (fuel j : Nat),
      countStartSignals (monitorPhase2 env t fuel j).1 =
        countOfflinePolls (monitorPhase2 env t fuel j).1 := by
  intro fuel
  induction fuel with
  | zero =>
    intro j
    rfl
  | succ fuel ih =>
    intro j
    by_cases hw : env.clock2While j - t < monitoringTimeoutMs
    · rcases hobs : env.resourceObs j with _ | st
      · simp only [monitorPhase2, hobs, if_pos hw]
        by_cases hi : monitoringTimeoutMs ≤ env.clock2Inner j - t
        · rw [if_pos hi]
          rfl
        · rw [if_neg hi]
          simp only [countStartSignals, countOfflinePolls, isStartSignal,
            isOfflinePoll, List.filter]
          exact ih (j + 1)
      · cases st
        · simp only [monitorPhase2, hobs, if_pos hw]
          rfl
        · simp only [monitorPhase2, hobs, if_pos hw]
          by_cases hi : monitoringTimeoutMs ≤ env.clock2Inner j - t
          · rw [if_pos hi]
            rfl
          · rw [if_neg hi]
            have hrec := ih (j + 1)
            simp only [countStartSignals, countOfflinePolls, isStartSignal,
              isOfflinePoll, List.filter, List.length_cons] at hrec ⊢
            omega
        · simp only [monitorPhase2, hobs, if_pos hw]
          by_cases hi : monitoringTimeoutMs ≤ env.clock2Inner j - t
          · rw [if_pos hi]
            rfl
          · rw [if_neg hi]
            simp only [countStartSignals, countOfflinePolls, isStartSignal,
              isOfflinePoll, List.filter]
            exact ih (j + 1)
        · simp only [monitorPhase2, hobs, if_pos hw]
          by_cases hi : monitoringTimeoutMs ≤ env.clock2Inner j - t
          · rw [if_pos hi]
            rfl
          · rw [if_neg hi]
            simp only [countStartSignals, countOfflinePolls, isStartSignal,
              isOfflinePoll, List.filter]
            exact ih (j + 1)
    · simp only [monitorPhase2, if_neg hw]
      rfl

theorem monitorPhase1_no_signals (env : MonitorEnv) (t : Nat) :
    ∀ (fuel i : Nat),
      countStartSignals (monitorPhase1 env t fuel i).1 = 0 ∧
      countOfflinePolls (monitorPhase1 env t fuel i).1 = 0 := by
  intro fuel
  induction fuel with
  | zero =>
    intro i
    exact ⟨rfl, rfl⟩
  | succ fuel ih =>
    intro i
    by_cases hw : env.clock1While i - t < monitoringTimeoutMs
    · rcases hobs : env.installObs i with _ | b
      · simp only [monitorPhase1, hobs, if_pos hw]
        by_cases hi : monitoringTimeoutMs ≤ env.clock1Inner i - t
        · rw [if_pos hi]
          exact ⟨rfl, rfl⟩
        · rw [if_neg hi]
          simp only [countStartSignals, countOfflinePolls, isStartSignal,
            isOfflinePoll, List.filter]
          exact ih (i + 1)
      · cases b
        · simp only [monitorPhase1, hobs, if_pos hw]
          exact ⟨rfl, rfl⟩
        · simp only [monitorPhase1, hobs, if_pos hw]
          by_cases hi : monitoringTimeoutMs ≤ env.clock1Inner i - t
          · rw [if_pos hi]
            exact ⟨rfl, rfl⟩
          · rw [if_neg hi]
            simp only [countStartSignals, countOfflinePolls, isStartSignal,
              isOfflinePoll, List.filter]
            exact ih (i + 1)
    · simp only [monitorPhase1, if_neg hw]
      exact ⟨rfl, rfl⟩

theorem monitorPhase2_outcomes (env : MonitorEnv) (t : Nat) :
    ∀ (fuel j : Nat),
      (monitorPhase2 env t fuel j).2 = .succeeded ∨
      (monitorPhase2 env t fuel j).2 = .runningTimedOut ∨
      (monitorPhase2 env t fuel j).2 = .runningSilentExit ∨
      (monitorPhase2 env t fuel j).2 = .outOfFuel := by
  intro fuel
  induction fuel with
  | zero =>
    intro j
    right; right; right
    rfl
  | succ fuel ih =>
    intro j
    by_cases hw : env.clock2While j - t < monitoringTimeoutMs
    · rcases hobs : env.resourceObs j with _ | st
      · simp only [monitorPhase2, hobs, if_pos hw]
        by_cases hi : monitoringTimeoutMs ≤ env.clock2Inner j - t
        · rw [if_pos hi]
          right; left; rfl
        · rw [if_neg hi]
          exact ih (j + 1)
      · cases st
        · simp only [monitorPhase2, hobs, if_pos hw]
          left
          trivial
        · simp only [monitorPhase2, hobs, if_pos hw]
          by_cases hi : monitoringTimeoutMs ≤ env.clock2Inner j - t
          · rw [if_pos hi]
            right; left; rfl
          · rw [if_neg hi]
            exact ih (j + 1)
        · simp only [monitorPhase2, hobs, if_pos hw]
          by_cases hi : monitoringTimeoutMs ≤ env.clock2Inner j - t
          · rw [if_pos hi]
            right; left; rfl
          · rw [if_neg hi]
            exact ih (j + 1)
        · simp only [monitorPhase2, hobs, if_pos hw]
          by_cases hi : monitoringTimeoutMs ≤ env.clock2Inner j - t
          · rw [if_pos hi]
            right; left; rfl
          · rw [if_neg hi]
            exact ih (j + 1)
    · simp only [monitorPhase2, if_neg hw]
      right
      right
      left
      trivial

theorem monitorPhase1_notifications (env : MonitorEnv) (t : Nat) :
    ∀ (fuel i : Nat),
      ((monitorPhase1 env t fuel i).2 = .timedOut →
        countNotifications (monitorPhase1 env t fuel i).1 = 1 ∧
        (monitorPhase1 env t fuel i).1.getLast? = some .notifyInstallTimeout) ∧
      ((monitorPhase1 env t fuel i).2 ≠ .timedOut →
        countNotifications (monitorPhase1 env t fuel i).1 = 0) := by
  intro fuel
  induction fuel with
  | zero =>
    intro i
    exact ⟨fun h => absurd h (by simp [monitorPhase1]), fun _ => rfl⟩
  | succ fuel ih =>
    intro i
    have step : ∀ found : Option Bool,
        ((monitorPhase1 env t fuel (i + 1)).2 = .timedOut →
          countNotifications (MonitorEvent.pollListServers found ::
            (monitorPhase1 env t fuel (i + 1)).1) = 1 ∧
          (MonitorEvent.pollListServers found ::
            (monitorPhase1 env t fuel (i + 1)).1).getLast? =
              some .notifyInstallTimeout) ∧
        ((monitorPhase1 env t fuel (i + 1)).2 ≠ .timedOut →
          countNotifications (MonitorEvent.pollListServers found ::
            (monitorPhase1 env t fuel (i + 1)).1) = 0) := by
      intro found
      have hrec := ih (i + 1)
      constructor
      · intro h
        obtain ⟨hcount, hlast⟩ := hrec.1 h
        constructor
        · simp only [countNotifications, isNotification, List.filter] at hcount ⊢
          exact hcount
        · have hne : (monitorPhase1 env t fuel (i + 1)).1 ≠ [] := by
            intro hnil
            rw [hnil] at hlast
            cases hlast
          rcases he : (monitorPhase1 env t fuel (i + 1)).1 with _ | ⟨e0, es⟩
          · exact absurd he hne
          · rw [he] at hlast
            rw [List.getLast?_cons_cons]
            exact hlast
      · intro h
        have hcount := hrec.2 h
        simp only [countNotifications, isNotification, List.filter] at hcount ⊢
        exact hcount
    by_cases hw : env.clock1While i - t < monitoringTimeoutMs
    · rcases hobs : env.installObs i with _ | b
      · simp only [monitorPhase1, hobs, if_pos hw]
        by_cases hi : monitoringTimeoutMs ≤ env.clock1Inner i - t
        · rw [if_pos hi]
          exact ⟨fun _ => ⟨rfl, rfl⟩, fun h => absurd rfl h⟩
        · rw [if_neg hi]
          exact step none
      · cases b
        · simp only [monitorPhase1, hobs, if_pos hw]
          refine ⟨?_, ?_⟩
          · intro h
            cases h
          · intro _
            rfl
        · simp only [monitorPhase1, hobs, if_pos hw]
          by_cases hi : monitoringTimeoutMs ≤ env.clock1Inner i - t
          · rw [if_pos hi]
            exact ⟨fun _ => ⟨rfl, rfl⟩, fun h => absurd rfl h⟩
          · rw [if_neg hi]
            exact step (some true)
    · simp only [monitorPhase1, if_neg hw]
      refine ⟨?_, ?_⟩
      · intro h
        cases h
      · intro _
        rfl

theorem monitorPhase2_notifications (env : MonitorEnv) (t : Nat) :
    ∀ (fuel j : Nat),
      ((monitorPhase2 env t fuel j).2 = .succeeded →
        countNotifications (monitorPhase2 env t fuel j).1 = 1 ∧
        (monitorPhase2 env t fuel j).1.getLast? = some .notifySuccess) ∧
      ((monitorPhase2 env t fuel j).2 = .runningTimedOut →
        countNotifications (monitorPhase2 env t fuel j).1 = 1 ∧
        (monitorPhase2 env t fuel j).1.getLast? = some .notifyRunningTimeout) ∧
      ((monitorPhase2 env t fuel j).2 = .runningSilentExit ∨
          (monitorPhase2 env t fuel j).2 = .outOfFuel →
        countNotifications (monitorPhase2 env t fuel j).1 = 0) := by
  intro fuel
  induction fuel with
  | zero =>
    intro j
    refine ⟨fun h => absurd h (by simp [monitorPhase2]),
      fun h => absurd h (by simp [monitorPhase2]), fun _ => rfl⟩
  | succ fuel ih =>
    intro j
    have step : ∀ pre : List MonitorEvent, (∀ e ∈ pre, isNotification e = false) →
        ((monitorPhase2 env t fuel (j + 1)).2 = .succeeded →
          countNotifications (pre ++ (monitorPhase2 env t fuel (j + 1)).1) = 1 ∧
          (pre ++ (monitorPhase2 env t fuel (j + 1)).1).getLast? =
            some .notifySuccess) ∧
        ((monitorPhase2 env t fuel (j + 1)).2 = .runningTimedOut →
          countNotifications (pre ++ (monitorPhase2 env t fuel (j + 1)).1) = 1 ∧
          (pre ++ (monitorPhase2 env t fuel (j + 1)).1).getLast? =
            some .notifyRunningTimeout) ∧
        ((monitorPhase2 env t fuel (j + 1)).2 = .runningSilentExit ∨
            (monitorPhase2 env t fuel (j + 1)).2 = .outOfFuel →
          countNotifications (pre ++ (monitorPhase2 env t fuel (j + 1)).1) = 0) := by
      intro pre hpre
      have hrec := ih (j + 1)
      have hfilter : (pre.filter isNotification).length = 0 := by
        rw [List.length_eq_zero, List.filter_eq_nil_iff]
        intro e he
        rw [hpre e he]
        exact Bool.false_ne_true
      have hcountapp : ∀ l : List MonitorEvent,
          countNotifications (pre ++ l) = countNotifications l := by
        intro l
        simp only [countNotifications, List.filter_append, List.length_append,
          hfilter]
        omega
      have hlastapp : ∀ (l : List MonitorEvent) (x : MonitorEvent),
          l.getLast? = some x → (pre ++ l).getLast? = some x := by
        intro l x hx
        rw [List.getLast?_append, hx]
        rfl
      refine ⟨?_, ?_, ?_⟩
      · intro h
        obtain ⟨hcount, hlast⟩ := hrec.1 h
        exact ⟨by rw [hcountapp]; exact hcount, hlastapp _ _ hlast⟩
      · intro h
        obtain ⟨hcount, hlast⟩ := hrec.2.1 h
        exact ⟨by rw [hcountapp]; exact hcount, hlastapp _ _ hlast⟩
      · intro h
        rw [hcountapp]
        exact hrec.2.2 h
    by_cases hw : env.clock2While j - t < monitoringTimeoutMs
    · rcases hobs : env.resourceObs j with _ | st
      · by_cases hi : monitoringTimeoutMs ≤ env.clock2Inner j - t
        · have hval : monitorPhase2 env t (fuel + 1) j =
              ([.pollResources none, .notifyRunningTimeout], .runningTimedOut) := by
            simp only [monitorPhase2, hobs, if_pos hw, if_pos hi]
          rw [hval]
          refine ⟨fun h => (by cases h), fun _ => ⟨rfl, rfl⟩, fun h => ?_⟩
          rcases h with h | h <;> cases h
        · have hval : monitorPhase2 env t (fuel + 1) j =
              (MonitorEvent.pollResources none :: (monitorPhase2 env t fuel (j + 1)).1,
                (monitorPhase2 env t fuel (j + 1)).2) := by
            simp only [monitorPhase2, hobs, if_pos hw, if_neg hi]
          rw [hval]
          exact step [.pollResources none]
            (by intro e he; simp at he; subst he; rfl)
      · cases st
        · have hval : monitorPhase2 env t (fuel + 1) j =
              ([.pollResources (some .running), .notifySuccess], .succeeded) := by
            simp only [monitorPhase2, hobs, if_pos hw]
          rw [hval]
          refine ⟨fun _ => ⟨rfl, rfl⟩, fun h => (by cases h), fun h => ?_⟩
          rcases h with h | h <;> cases h
        · by_cases hi : monitoringTimeoutMs ≤ env.clock2Inner j - t
          · have hval : monitorPhase2 env t (fuel + 1) j =
                ([.pollResources (some .offline), .startSignal,
                  .notifyRunningTimeout], .runningTimedOut) := by
              simp only [monitorPhase2, hobs, if_pos hw, if_pos hi]
            rw [hval]
            refine ⟨fun h => (by cases h), fun _ => ⟨rfl, rfl⟩, fun h => ?_⟩
            rcases h with h | h <;> cases h
          · have hval : monitorPhase2 env t (fuel + 1) j =
                (MonitorEvent.pollResources (some .offline) ::
                  MonitorEvent.startSignal :: (monitorPhase2 env t fuel (j + 1)).1,
                  (monitorPhase2 env t fuel (j + 1)).2) := by
              simp only [monitorPhase2, hobs, if_pos hw, if_neg hi]
            rw [hval]
            exact step [.pollResources (some .offline), .startSignal]
              (by intro e he; simp at he; rcases he with rfl | rfl <;> rfl)
        · by_cases hi : monitoringTimeoutMs ≤ env.clock2Inner j - t
          · have hval : monitorPhase2 env t (fuel + 1) j =
                ([.pollResources (some .starting), .notifyRunningTimeout],
                  .runningTimedOut) := by
              simp only [monitorPhase2, hobs, if_pos hw, if_pos hi]
            rw [hval]
            refine ⟨fun h => (by cases h), fun _ => ⟨rfl, rfl⟩, fun h => ?_⟩
            rcases h with h | h <;> cases h
          · have hval : monitorPhase2 env t (fuel + 1) j =
                (MonitorEvent.pollResources (some .starting) ::
                  (monitorPhase2 env t fuel (j + 1)).1,
                  (monitorPhase2 env t fuel (j + 1)).2) := by
              simp only [monitorPhase2, hobs, if_pos hw, if_neg hi]
            rw [hval]
            exact step [.pollResources (some .starting)]
              (by intro e he; simp at he; subst he; rfl)
        · by_cases hi : monitoringTimeoutMs ≤ env.clock2Inner j - t
          · have hval : monitorPhase2 env t (fuel + 1) j =
                ([.pollResources (some .stopping), .notifyRunningTimeout],
                  .runningTimedOut) := by
              simp only [monitorPhase2, hobs, if_pos hw, if_pos hi]
            rw [hval]
            refine ⟨fun h => (by cases h), fun _ => ⟨rfl, rfl⟩, fun h => ?_⟩
            rcases h with h | h <;> cases h
          · have hval : monitorPhase2 env t (fuel + 1) j =
                (MonitorEvent.pollResources (some .stopping) ::
                  (monitorPhase2 env t fuel (j + 1)).1,
                  (monitorPhase2 env t fuel (j + 1)).2) := by
              simp only [monitorPhase2, hobs, if_pos hw, if_neg hi]
            rw [hval]
            exact step [.pollResources (some .stopping)]
              (by intro e he; simp at he; subst he; rfl)
    · have hval : monitorPhase2 env t (fuel + 1) j = ([], .runningSilentExit) := by
        simp only [monitorPhase2, if_neg hw]
      rw [hval]
      exact ⟨fun h => (by cases h), fun h => (by cases h), fun _ => rfl⟩

theorem monitorPhase1_silent_budget (env : MonitorEnv) (t : Nat) :
    ∀ (fuel i : Nat), (monitorPhase1 env t fuel i).2 = .silentExit →
      ∃ i', monitoringTimeoutMs ≤ env.clock1While i' - t := by
  intro fuel
  induction fuel with
  | zero =>
    intro i h
    exact absurd h (by simp [monitorPhase1])
  | succ fuel ih =>
    intro i h
    by_cases hw : env.clock1While i - t < monitoringTimeoutMs
    · rcases hobs : env.installObs i with _ | b
      · simp only [monitorPhase1, hobs, if_pos hw] at h
        by_cases hi : monitoringTimeoutMs ≤ env.clock1Inner i - t
        · rw [if_pos hi] at h
          cases h
        · rw [if_neg hi] at h
          exact ih (i + 1) h
      · cases b
        · simp only [monitorPhase1, hobs, if_pos hw] at h
          cases h
        · simp only [monitorPhase1, hobs, if_pos hw] at h
          by_cases hi : monitoringTimeoutMs ≤ env.clock1Inner i - t
          · rw [if_pos hi] at h
            cases h
          · rw [if_neg hi] at h
            exact ih (i + 1) h
    · exact ⟨i, by omega⟩

theorem monitorPhase2_silent_budget (env : MonitorEnv) (t : Nat) :
    ∀ (fuel j : Nat), (monitorPhase2 env t fuel j).2 = .runningSilentExit →
      ∃ j', monitoringTimeoutMs ≤ env.clock2While j' - t := by
  intro fuel
  induction fuel with
  | zero =>
    intro j h
    exact absurd h (by simp [monitorPhase2])
  | succ fuel ih =>
    intro j h
    by_cases hw : env.clock2While j - t < monitoringTimeoutMs
    · rcases hobs : env.resourceObs j with _ | st
      · simp only [monitorPhase2, hobs, if_pos hw] at h
        by_cases hi : monitoringTimeoutMs ≤ env.clock2Inner j - t
        · rw [if_pos hi] at h
          cases h
        · rw [if_neg hi] at h
          exact ih (j + 1) h
      · cases st
        · simp only [monitorPhase2, hobs, if_pos hw] at h
          cases h
        · simp only [monitorPhase2, hobs, if_pos hw] at h
          by_cases hi : monitoringTimeoutMs ≤ env.clock2Inner j - t
          · rw [if_pos hi] at h
            cases h
          · rw [if_neg hi] at h
            exact ih (j + 1) h
        · simp only [monitorPhase2, hobs, if_pos hw] at h
          by_cases hi : monitoringTimeoutMs ≤ env.clock2Inner j - t
          · rw [if_pos hi] at h
            cases h
          · rw [if_neg hi] at h
            exact ih (j + 1) h
        · simp only [monitorPhase2, hobs, if_pos hw] at h
          by_cases hi : monitoringTimeoutMs ≤ env.clock2Inner j - t
          · rw [if_pos hi] at h
            cases h
          · rw [if_neg hi] at h
            exact ih (j + 1) h
    · exact ⟨j, by omega⟩

/-- C3 (amended): over one monitor run, (1) the terminal state is
`succeeded` exactly when the installation phase completed and some resource
poll — reached with every check inside the ten-minute budget — observed
`running`; (2) an installation-phase timeout is only declared after a
post-sleep clock read at or past the budget, and likewise (3) for the
awaiting-running phase; (4) a silent exit (no terminal notification at all)
happens only when a loop-entry clock read is at or past the budget — so the
budget elapsing does not always yield the TimedOut notification, refuting
the unamended claim; and (5) the run issues exactly one recovery start
power-signal per `offline` observation. -/
theorem C3_monitor_terminal_states (env : MonitorEnv) (t fuel : Nat) :
    ((monitorServerInstallationAndStartup env t fuel).2 = .succeeded ↔
      (monitorPhase1 env t fuel 0).2 = .finishedInstall ∧
      ∃ j, j < fuel ∧ (∀ k, k < j → phase2Continues env t k) ∧
        env.clock2While j - t < monitoringTimeoutMs ∧
        env.resourceObs j = some .running) ∧
    ((monitorServerInstallationAndStartup env t fuel).2 = .installTimedOut →
      ∃ i, monitoringTimeoutMs ≤ env.clock1Inner i - t) ∧
    ((monitorServerInstallationAndStartup env t fuel).2 = .runningTimedOut →
      ∃ j, monitoringTimeoutMs ≤ env.clock2Inner j - t) ∧
    ((monitorServerInstallationAndStartup env t fuel).2 = .installSilentExit →
      ∃ i, monitoringTimeoutMs ≤ env.clock1While i - t) ∧
    ((monitorServerInstallationAndStartup env t fuel).2 = .runningSilentExit →
      ∃ j, monitoringTimeoutMs ≤ env.clock2While j - t) ∧
    countStartSignals (monitorServerInstallationAndStartup env t fuel).1 =
      countOfflinePolls (monitorServerInstallationAndStartup env t fuel).1 := by
  rcases hp1 : (monitorPhase1 env t fuel 0).2 with _ | _ | _ | _
  case finishedInstall =>
    have hval : monitorServerInstallationAndStartup env t fuel =
        ((monitorPhase1 env t fuel 0).1 ++ (monitorPhase2 env t fuel 0).1,
          (monitorPhase2 env t fuel 0).2) := by
      simp only [monitorServerInstallationAndStartup, hp1]
    rw [hval]
    refine ⟨?_, ?_, ?_, ?_, ?_, ?_⟩
    · rw [monitorPhase2_succeeded_iff env t fuel 0]
      constructor
      · rintro ⟨j, hj1, hj2, hcont, hw, hr⟩
        exact ⟨rfl, j, by omega, fun k hk => hcont k (by omega) hk, hw, hr⟩
      · rintro ⟨_, j, hj, hcont, hw, hr⟩
        exact ⟨j, by omega, by omega, fun k hk1 hk2 => hcont k hk2, hw, hr⟩
    · intro h
      rcases monitorPhase2_outcomes env t fuel 0 with h2 | h2 | h2 | h2 <;>
        rw [h2] at h <;> cases h
    · intro h
      exact monitorPhase2_timedOut_budget env t fuel 0 h
    · intro h
      rcases monitorPhase2_outcomes env t fuel 0 with h2 | h2 | h2 | h2 <;>
        rw [h2] at h <;> cases h
    · intro h
      exact monitorPhase2_silent_budget env t fuel 0 h
    · have h1 := monitorPhase1_no_signals env t fuel 0
      have h2 := monitorPhase2_signals env t fuel 0
      simp only [countStartSignals, countOfflinePolls, List.filter_append,
        List.length_append] at h1 h2 ⊢
      omega
  case timedOut =>
    have hval : monitorServerInstallationAndStartup env t fuel =
        ((monitorPhase1 env t fuel 0).1, .installTimedOut) := by
      simp only [monitorServerInstallationAndStartup, hp1]
    rw [hval]
    refine ⟨?_, ?_, ?_, ?_, ?_, ?_⟩
    · constructor
      · intro h
        cases h
      · rintro ⟨hfin, _⟩
        cases hfin
    · intro _
      exact monitorPhase1_timedOut_budget env t fuel 0 hp1
    · intro h
      cases h
    · intro h
      cases h
    · intro h
      cases h
    · exact (monitorPhase1_no_signals env t fuel 0).1.trans
        (monitorPhase1_no_signals env t fuel 0).2.symm
  case silentExit =>
    have hval : monitorServerInstallationAndStartup env t fuel =
        ((monitorPhase1 env t fuel 0).1, .installSilentExit) := by
      simp only [monitorServerInstallationAndStartup, hp1]
    rw [hval]
    refine ⟨?_, ?_, ?_, ?_, ?_, ?_⟩
    · constructor
      · intro h
        cases h
      · rintro ⟨hfin, _⟩
        cases hfin
    · intro h
      cases h
    · intro h
      cases h
    · intro _
      exact monitorPhase1_silent_budget env t fuel 0 hp1
    · intro h
      cases h
    · exact (monitorPhase1_no_signals env t fuel 0).1.trans
        (monitorPhase1_no_signals env t fuel 0).2.symm
  case outOfFuel =>
    have hval : monitorServerInstallationAndStartup env t fuel =
        ((monitorPhase1 env t fuel 0).1, .outOfFuel) := by
      simp only [monitorServerInstallationAndStartup, hp1]
    rw [hval]
    refine ⟨?_, ?_, ?_, ?_, ?_, ?_⟩
    · constructor
      · intro h
        cases h
      · rintro ⟨hfin, _⟩
        cases hfin
    · intro h
      cases h
    · intro h
      cases h
    · intro h
      cases h
    · intro h
      cases h
    · exact (monitorPhase1_no_signals env t fuel 0).1.trans
        (monitorPhase1_no_signals env t fuel 0).2.symm

/-- C4 (amended): in the `Succeeded` and both `TimedOut` terminal states the
monitor emits exactly one notification to the originating channel, and that
notification is the last event of the run — no polling or signaling follows
it; but in the silent-exit terminal states (budget elapse first observed at
a loop-entry clock read) it emits no notification at all, refuting the
unamended "never zero" claim. -/
theorem C4_monitor_notifications (env : MonitorEnv) (t fuel : Nat) :
    ((monitorServerInstallationAndStartup env t fuel).2 = .succeeded →
      countNotifications (monitorServerInstallationAndStartup env t fuel).1 = 1 ∧
      (monitorServerInstallationAndStartup env t fuel).1.getLast? =
        some .notifySuccess) ∧
    ((monitorServerInstallationAndStartup env t fuel).2 = .installTimedOut →
      countNotifications (monitorServerInstallationAndStartup env t fuel).1 = 1 ∧
      (monitorServerInstallationAndStartup env t fuel).1.getLast? =
        some .notifyInstallTimeout) ∧
    ((monitorServerInstallationAndStartup env t fuel).2 = .runningTimedOut →
      countNotifications (monitorServerInstallationAndStartup env t fuel).1 = 1 ∧
      (monitorServerInstallationAndStartup env t fuel).1.getLast? =
        some .notifyRunningTimeout) ∧
    ((monitorServerInstallationAndStartup env t fuel).2 = .installSilentExit ∨
        (monitorServerInstallationAndStartup env t fuel).2 = .runningSilentExit →
      countNotifications (monitorServerInstallationAndStartup env t fuel).1 = 0) := by
  have hn1 := monitorPhase1_notifications env t fuel 0
  have hn2 := monitorPhase2_notifications env t fuel 0
  rcases hp1 : (monitorPhase1 env t fuel 0).2 with _ | _ | _ | _
  case finishedInstall =>
    have hval : monitorServerInstallationAndStartup env t fuel =
        ((monitorPhase1 env t fuel 0).1 ++ (monitorPhase2 env t fuel 0).1,
          (monitorPhase2 env t fuel 0).2) := by
      simp only [monitorServerInstallationAndStartup, hp1]
    rw [hval]
    have hc1 : countNotifications (monitorPhase1 env t fuel 0).1 = 0 :=
      hn1.2 (by rw [hp1]; intro h; cases h)
    have happ : ∀ l : List MonitorEvent,
        countNotifications ((monitorPhase1 env t fuel 0).1 ++ l) =
          countNotifications l := by
      intro l
      simp only [countNotifications, List.filter_append, List.length_append] at hc1 ⊢
      omega
    have hlastapp : ∀ (l : List MonitorEvent) (x : MonitorEvent),
        l.getLast? = some x →
          ((monitorPhase1 env t fuel 0).1 ++ l).getLast? = some x := by
      intro l x hx
      rw [List.getLast?_append, hx]
      rfl
    refine ⟨?_, ?_, ?_, ?_⟩
    · intro h
      obtain ⟨hcount, hlast⟩ := hn2.1 h
      exact ⟨by rw [happ]; exact hcount, hlastapp _ _ hlast⟩
    · intro h
      rcases monitorPhase2_outcomes env t fuel 0 with h2 | h2 | h2 | h2 <;>
        rw [h2] at h <;> cases h
    · intro h
      obtain ⟨hcount, hlast⟩ := hn2.2.1 h
      exact ⟨by rw [happ]; exact hcount, hlastapp _ _ hlast⟩
    · intro h
      rcases h with h | h
      · rcases monitorPhase2_outcomes env t fuel 0 with h2 | h2 | h2 | h2 <;>
          rw [h2] at h <;> cases h
      · rw [happ]
        exact hn2.2.2 (Or.inl h)
  case timedOut =>
    have hval : monitorServerInstallationAndStartup env t fuel =
        ((monitorPhase1 env t fuel 0).1, .installTimedOut) := by
      simp only [monitorServerInstallationAndStartup, hp1]
    rw [hval]
    refine ⟨fun h => (by cases h), ?_, fun h => (by cases h), ?_⟩
    · intro _
      exact hn1.1 hp1
    · intro h
      rcases h with h | h <;> cases h
  case silentExit =>
    have hval : monitorServerInstallationAndStartup env t fuel =
        ((monitorPhase1 env t fuel 0).1, .installSilentExit) := by
      simp only [monitorServerInstallationAndStartup, hp1]
    rw [hval]
    refine ⟨fun h => (by cases h), fun h => (by cases h), fun h => (by cases h), ?_⟩
    · intro _
      exact hn1.2 (by rw [hp1]; intro h; cases h)
  case outOfFuel =>
    have hval : monitorServerInstallationAndStartup env t fuel =
        ((monitorPhase1 env t fuel 0).1, .outOfFuel) := by
      simp only [monitorServerInstallationAndStartup, hp1]
    rw [hval]
    refine ⟨fun h => (by cases h), fun h => (by cases h), fun h => (by cases h), ?_⟩
    · intro h
      rcases h with h | h <;> cases h

/-- The clock race of phase 2: installation finishes at once, the resource
poll sees `starting`, the post-sleep check reads 599999 ms (within budget),
and the next loop-entry check reads 600000 ms — the budget has elapsed. -/
def raceEnvRunning : MonitorEnv :=
  { installObs := fun _ => some false,
    resourceObs := fun _ => some .starting,
    clock1While := fun _ => 0,
    clock1Inner := fun _ => 0,
    clock2While := fun j => if j = 0 then 0 else 600000,
    clock2Inner := fun _ => 599999 }

/-- C3 counterexample: the budget elapses first (no `running` was ever
observed, and the clock passes 600000 ms), yet the monitor does not
terminate in TimedOut: it exits silently with no notification, because the
elapse is observed at the loop-entry check rather than the post-sleep
check. -/
theorem C3_counterexample :
    (monitorServerInstallationAndStartup raceEnvRunning 0 5).2 =
      .runningSilentExit ∧
    (∀ j, raceEnvRunning.resourceObs j ≠ some .running) ∧
    monitoringTimeoutMs ≤ raceEnvRunning.clock2While 1 - 0 ∧
    countNotifications (monitorServerInstallationAndStartup raceEnvRunning 0 5).1 = 0 := by
  refine ⟨by decide, ?_, by decide, by decide⟩
  intro j
  simp [raceEnvRunning]

/-- The clock race of phase 1: the server stays installing, the post-sleep
check reads 599999 ms, the next loop-entry check reads 600000 ms. -/
def raceEnvInstall : MonitorEnv :=
  { installObs := fun _ => some true,
    resourceObs := fun _ => none,
    clock1While := fun i => if i = 0 then 0 else 600000,
    clock1Inner := fun _ => 599999,
    clock2While := fun _ => 0,
    clock2Inner := fun _ => 0 }

/-- C4 counterexample: a run that reaches a terminal state (the monitor
returns) while emitting zero notifications — the installation-phase loop is
left through its entry check (`if (isStillInstalling) return`), which sends
nothing. -/
theorem C4_counterexample :
    (monitorServerInstallationAndStartup raceEnvInstall 0 5).2 =
      .installSilentExit ∧
    countNotifications (monitorServerInstallationAndStartup raceEnvInstall 0 5).1 = 0 := by
  exact ⟨by decide, by decide⟩

end Asuna
